import Mathlib

/-!
Verification of the WFSFeatureServer core against its specification.

The Python source is shallowly embedded: pure functions become Lean
functions, the SQLite tables become explicit list-valued state, machine
floats stored in REAL columns are modelled by rationals, and external
collaborators (shapely WKB codec, pyproj reprojection) are modelled by
their contracts (the WKB codec as an inverse pair, reprojection as an
explicit function parameter).
-/

namespace WFS

/-! ## Property values (JSON scalars)

Values of the JSON `properties` mapping: a tagged scalar, mirroring the
Python runtime types the code probes with `isinstance`
(`bool` / `int` / `float` / `str` / `None`). -/

inductive PValue where
  | null
  | bool (b : Bool)
  | int (n : Int)
  | real (q : Rat)
  | str (s : String)
  deriving DecidableEq, Repr

/-! ## services/geometry_service.py : `_value_type`

Python checks `isinstance(v, bool)` first (a Python `bool` is an `int`
subclass), then `int`, then `float`; everything else, including `None`,
falls through to `"String"`. -/

def valueType : PValue → String
  | .bool _ => "String"
  | .int _ => "Integer"
  | .real _ => "Real"
  | _ => "String"

/-! ## services/geometry_service.py : `infer_schema`

The Python function folds the sampled property dicts into
`fields : dict[str, set[str]]` and then classifies each accumulated
label set.  A property dict is embedded as an association list iterated
in insertion order (Python dict iteration order); the label set is an
insertion-ordered duplicate-free list, which is faithful because the
classification only asks `types == \x7b"Integer"\x7d` (all labels equal
`"Integer"`; the set is never empty once the field was observed) and
`types <= \x7b"Integer", "Real"\x7d` (all labels among those two). -/

abbrev Props := List (String × PValue)

def addLabel (labels : List String) (t : String) : List String :=
  if t ∈ labels then labels else labels ++ [t]

def addObs (fields : List (String × List String)) (k t : String) :
    List (String × List String) :=
  match fields with
  | [] => [(k, [t])]
  | (k₀, ls) :: rest =>
      if k₀ = k then (k₀, addLabel ls t) :: rest
      else (k₀, ls) :: addObs rest k t

def collectFields (sample : List Props) : List (String × List String) :=
  sample.foldl (fun fields props =>
    props.foldl (fun fields kv => addObs fields kv.1 (valueType kv.2)) fields) []

def classifyLabels (types : List String) : String :=
  if types.all (· = "Integer") then "Integer"
  else if types.all (fun t => t = "Integer" ∨ t = "Real") then "Real"
  else "String"

def inferSchema (sample : List Props) : List (String × String) :=
  if sample = [] then []
  else (collectFields sample).map (fun kt => (kt.1, classifyLabels kt.2))

/-! ## Decimal rendering and the `EPSG::(\d+)` regex

`wkb_to_gml32` interpolates the integer SRID into
`urn:ogc:def:crs:EPSG::<srid>` with a Python f-string; `_parse_srs`
recovers it with `re.search` for `EPSG::` followed by a maximal run of
decimal digits.  Both sides are embedded over `List Char`:
`natToDigits` models `str(int)` for a non-negative SRID and
`epsgSearch` models the left-to-right regex scan. -/

def digitChar : Nat → Char
  | 0 => '0' | 1 => '1' | 2 => '2' | 3 => '3' | 4 => '4'
  | 5 => '5' | 6 => '6' | 7 => '7' | 8 => '8' | 9 => '9'
  | _ => '*'

def digitVal (c : Char) : Nat := c.toNat - 48

def natToDigits (n : Nat) : List Char :=
  if h : n < 10 then [digitChar n]
  else natToDigits (n / 10) ++ [digitChar (n % 10)]
  decreasing_by exact Nat.div_lt_self (by omega) (by omega)

def digitsToNat (ds : List Char) : Nat :=
  ds.foldl (fun acc c => 10 * acc + digitVal c) 0

/-- `re` matching of `EPSG::(\d+)` anchored at the head of the list:
the literal prefix, then a maximal non-empty digit run. -/
def matchEpsgAt : List Char → Option Nat
  | c1 :: c2 :: c3 :: c4 :: c5 :: c6 :: rest =>
      if c1 = 'E' ∧ c2 = 'P' ∧ c3 = 'S' ∧ c4 = 'G' ∧ c5 = ':' ∧ c6 = ':' then
        let ds := rest.takeWhile Char.isDigit
        if ds.isEmpty then none else some (digitsToNat ds)
      else none
  | _ => none

/-- `re.search`: try every start position left to right. -/
def epsgSearch : List Char → Option Nat
  | [] => none
  | c :: rest =>
      match matchEpsgAt (c :: rest) with
      | some n => some n
      | none => epsgSearch rest

/-- The characters of `"urn:ogc:def:crs:EPSG::"`. -/
def srsUrnChars : List Char :=
  ['u', 'r', 'n', ':', 'o', 'g', 'c', ':', 'd', 'e', 'f', ':',
   'c', 'r', 's', ':', 'E', 'P', 'S', 'G', ':', ':']

/-- The srsName emitted for an SRID: `urn:ogc:def:crs:EPSG::<srid>`. -/
def srsUrn (srid : Nat) : String := ⟨srsUrnChars ++ natToDigits srid⟩

/-! ## XML model

The code builds GML as strings and consumes `xml.etree.ElementTree`
elements.  Both are modelled by one tree type.  A tag is the full
ElementTree tag string (namespaced tags look like
`\x7bnamespace-uri\x7dlocal`).  Text content is either absent
(`ElementTree` gives `None` for an element serialized with no text),
an uninterpreted string, or — for coordinate content — the list of
numbers obtained by whitespace-splitting the text and applying
`float`; Python `repr`/`float` round-trip floats exactly, so the
number list is the faithful abstraction of the emitted text.  An
empty coordinate list serializes to empty text, which re-parses as
`None`. -/

inductive XText where
  | none
  | str (s : String)
  | nums (xs : List Rat)
  deriving DecidableEq, Repr

inductive Xml where
  | elem (tag : String) (attrs : List (String × String)) (text : XText) (children : List Xml)

def Xml.tag : Xml → String
  | .elem t _ _ _ => t

def Xml.attrs : Xml → List (String × String)
  | .elem _ a _ _ => a

def Xml.text : Xml → XText
  | .elem _ _ t _ => t

def Xml.children : Xml → List Xml
  | .elem _ _ _ cs => cs

/-- `elem.get(name)`: first attribute with the given name. -/
def attrGet (e : Xml) (name : String) : Option String :=
  (e.attrs.find? (fun kv => kv.1 == name)).map (·.2)

/-- `tag.split("}")[-1] if "}" in tag else tag`: the characters after
the last closing brace (char 125), or the whole tag when there is none. -/
def localName (tag : String) : String :=
  ⟨tag.toList.foldl (fun acc c => if c = Char.ofNat 125 then [] else acc ++ [c]) []⟩

/-- `_gml_tag`: fully-qualified GML 3.2 tag. -/
def gmlTag (l : String) : String :=
  "\x7bhttp://www.opengis.net/gml/3.2\x7d" ++ l

/-! ## Geometry model

The seven geometry classes of `_geom_to_gml` / `_parse_gml_element` as
a sum type; coordinates are rationals (exact stand-ins for the Python
floats, whose textual round-trip is exact). -/

abbrev Coord := Rat × Rat

structure PolyRings where
  exterior : List Coord
  interiors : List (List Coord)
  deriving DecidableEq, Repr

inductive Geom where
  | point (c : Coord)
  | lineString (cs : List Coord)
  | polygon (rings : PolyRings)
  | multiPoint (ps : List Coord)
  | multiLineString (ls : List (List Coord))
  | multiPolygon (ps : List PolyRings)
  | geometryCollection (gs : List Geom)

/-- The shapely WKB codec is an external collaborator; its contract is
`wkb_to_geom (geom_to_wkb g) = g` (SRID not embedded), so WKB bytes are
modelled as a wrapper around the geometry value. -/
structure Wkb where
  geom : Geom

def geomToWkb (g : Geom) : Wkb := ⟨g⟩

def wkbToGeom (w : Wkb) : Geom := w.geom

/-! ## GML 3.2 serialization (`_geom_to_gml` and helpers) -/

/-- `_coords_str`: `"x y x y …"` or `"y x y x …"` under axis swap,
as the token list. -/
def coordsText : List Coord → Bool → List Rat
  | [], _ => []
  | (x, y) :: rest, swap => (if swap then [y, x] else [x, y]) ++ coordsText rest swap

def pointGml (c : Coord) (srs : String) (swap : Bool) : Xml :=
  .elem (gmlTag "Point") [("srsName", srs)] .none
    [.elem (gmlTag "pos") [] (.nums (if swap then [c.2, c.1] else [c.1, c.2])) []]

def linestringGml (cs : List Coord) (srs : String) (swap : Bool) : Xml :=
  .elem (gmlTag "LineString") [("srsName", srs)] .none
    [.elem (gmlTag "posList") [] (.nums (coordsText cs swap)) []]

def ringGml (r : List Coord) (swap : Bool) : Xml :=
  .elem (gmlTag "LinearRing") [] .none
    [.elem (gmlTag "posList") [] (.nums (coordsText r swap)) []]

def polygonGml (rings : PolyRings) (srs : String) (swap : Bool) : Xml :=
  .elem (gmlTag "Polygon") [("srsName", srs)] .none
    (.elem (gmlTag "exterior") [] .none [ringGml rings.exterior swap] ::
      rings.interiors.map (fun r => .elem (gmlTag "interior") [] .none [ringGml r swap]))

/-- `_multi_gml`: wrap each part in a member element. -/
def memberWrap (memberTag : String) (part : Xml) : Xml :=
  .elem (gmlTag memberTag) [] .none [part]

mutual

def geomToGml : Geom → String → Bool → Xml
  | .point c, srs, swap => pointGml c srs swap
  | .lineString cs, srs, swap => linestringGml cs srs swap
  | .polygon rings, srs, swap => polygonGml rings srs swap
  | .multiPoint ps, srs, swap =>
      .elem (gmlTag "MultiPoint") [("srsName", srs)] .none
        (ps.map (fun p => memberWrap "pointMember" (pointGml p srs swap)))
  | .multiLineString ls, srs, swap =>
      .elem (gmlTag "MultiCurve") [("srsName", srs)] .none
        (ls.map (fun l => memberWrap "curveMember" (linestringGml l srs swap)))
  | .multiPolygon ps, srs, swap =>
      .elem (gmlTag "MultiSurface") [("srsName", srs)] .none
        (ps.map (fun p => memberWrap "surfaceMember" (polygonGml p srs swap)))
  | .geometryCollection gs, srs, swap =>
      .elem (gmlTag "MultiGeometry") [("srsName", srs)] .none
        (geomListToGml gs srs swap)

def geomListToGml : List Geom → String → Bool → List Xml
  | [], _, _ => []
  | g :: gs, srs, swap =>
      .elem (gmlTag "geometryMember") [] .none [geomToGml g srs swap] ::
        geomListToGml gs srs swap

end

/-- `wkb_to_gml32`: decode the WKB, build the EPSG URN, swap axes for
EPSG:4326 only. -/
def wkbToGml32 (w : Wkb) (srid : Nat) : Xml :=
  geomToGml (wkbToGeom w) (srsUrn srid) (srid == 4326)

/-! ## GML 3.2 parsing (`_parse_srs`, `_parse_pos`, …, `gml32_to_geom`) -/

/-- `_parse_srs`: SRID from the `srsName` attribute via the
`EPSG::(\d+)` regex, default 4326; swap iff the SRID is 4326. -/
def parseSrs (e : Xml) : Nat × Bool :=
  let srs := (attrGet e "srsName").getD ""
  let srid := (epsgSearch srs.toList).getD 4326
  (srid, srid == 4326)

/-- `_find_text`: first GML child with the tag, failing when absent or
when its text is missing.  A non-numeric text fails later in Python at
`float()`; the failure is surfaced here with the same `Except` effect. -/
def findText (e : Xml) (l : String) : Except String (List Rat) :=
  match e.children.find? (fun c => c.tag == gmlTag l) with
  | .none => .error ("Missing gml " ++ l ++ " element")
  | .some c =>
      match c.text with
      | .none => .error ("Missing gml " ++ l ++ " element")
      | .str "" => .error ("Missing gml " ++ l ++ " element")
      | .str s => .error ("could not convert string to float: " ++ s)
      | .nums [] => .error ("Missing gml " ++ l ++ " element")
      | .nums xs => .ok xs

/-- `_parse_pos`: first two tokens, swapped if needed. -/
def parsePos (xs : List Rat) (swap : Bool) : Except String Coord :=
  match xs with
  | a :: b :: _ => .ok (if swap then (b, a) else (a, b))
  | _ => .error "list index out of range"

/-- `_parse_poslist`: consecutive token pairs, each swapped if needed. -/
def parsePoslist (xs : List Rat) (swap : Bool) : Except String (List Coord) :=
  match xs with
  | [] => .ok []
  | [_] => .error "list index out of range"
  | a :: b :: rest => do
      let cs ← parsePoslist rest swap
      .ok ((if swap then (b, a) else (a, b)) :: cs)

def parsePointCoord (e : Xml) (swap : Bool) : Except String Coord := do
  let xs ← findText e "pos"
  parsePos xs swap

def parseLinestringCoords (e : Xml) (swap : Bool) : Except String (List Coord) := do
  let xs ← findText e "posList"
  parsePoslist xs swap

/-- `_parse_linearring`. -/
def parseLinearring (e : Xml) (swap : Bool) : Except String (List Coord) := do
  let xs ← findText e "posList"
  parsePoslist xs swap

def findChild (e : Xml) (tag : String) : Option Xml :=
  e.children.find? (fun c => c.tag == tag)

/-- The Python loops build their result lists in order and propagate the
first raised error; a structural effectful map. -/
def mapMExcept (f : α → Except String β) : List α → Except String (List β)
  | [] => .ok []
  | a :: rest => do
      let b ← f a
      let bs ← mapMExcept f rest
      .ok (b :: bs)

def parsePolygonRings (e : Xml) (swap : Bool) : Except String PolyRings :=
  match findChild e (gmlTag "exterior") with
  | .none => .error "Polygon missing gml exterior"
  | .some ext =>
      match findChild ext (gmlTag "LinearRing") with
      | .none => .error "Polygon exterior missing gml LinearRing"
      | .some ring => do
          let exterior ← parseLinearring ring swap
          let holes ← mapMExcept (fun r => parseLinearring r swap)
            ((e.children.filter (fun c => c.tag == gmlTag "interior")).filterMap
              (fun i => findChild i (gmlTag "LinearRing")))
          .ok ⟨exterior, holes⟩

/-- `_parse_multi` for the non-recursive member kinds: members with the
tag, first child of each, parsed by the part function. -/
def parseMulti (e : Xml) (memberTag : String) (partFn : Xml → Except String α) :
    Except String (List α) :=
  mapMExcept partFn
    ((e.children.filter (fun c => c.tag == gmlTag memberTag)).filterMap
      (fun m => m.children.head?))

mutual

/-- `_parse_gml_element`: dispatch on the local tag name.  The
`MultiGeometry` arm is `_parse_multi` instantiated with the recursive
parser, unfolded into `parseGeomMembers` below. -/
def parseGmlElement : Xml → Bool → Except String Geom
  | .elem tag attrs txt children, swap =>
    let e := Xml.elem tag attrs txt children
    let l := localName tag
    if l = "Point" then (parsePointCoord e swap).map .point
    else if l = "LineString" then (parseLinestringCoords e swap).map .lineString
    else if l = "Polygon" then (parsePolygonRings e swap).map .polygon
    else if l = "MultiPoint" then
      (parseMulti e "pointMember" (fun c => parsePointCoord c swap)).map .multiPoint
    else if l = "MultiCurve" then
      (parseMulti e "curveMember" (fun c => parseLinestringCoords c swap)).map .multiLineString
    else if l = "MultiSurface" then
      (parseMulti e "surfaceMember" (fun c => parsePolygonRings c swap)).map .multiPolygon
    else if l = "MultiGeometry" then
      (parseGeomMembers children swap).map .geometryCollection
    else .error ("Unsupported GML geometry type: " ++ l)

/-- `_parse_multi(elem, swap, "geometryMember", _parse_gml_element)`:
walk the children, keep `geometryMember` elements with at least one
child, parse each first child. -/
def parseGeomMembers (children : List Xml) (swap : Bool) : Except String (List Geom) :=
  match children with
  | [] => .ok []
  | .elem t a txt cs :: rest =>
      if t = gmlTag "geometryMember" then
        match cs with
        | [] => parseGeomMembers rest swap
        | c :: _ => do
            let g ← parseGmlElement c swap
            let gs ← parseGeomMembers rest swap
            .ok (g :: gs)
      else parseGeomMembers rest swap

end

/-- `gml32_to_geom`: extract SRID/swap, parse the element. -/
def gml32ToGeom (e : Xml) : Except String (Geom × Nat) :=
  let sr := parseSrs e
  (parseGmlElement e sr.2).map (fun g => (g, sr.1))

/-! ## Well-formed geometries

The geometries constructible by the shapely collaborator: LineStrings
carry at least two coordinates, rings are closed and carry at least
four (shapely raises on anything smaller, and `Polygon(...)` would
otherwise re-close a ring on parse).  Only non-emptiness is needed for
the round-trip argument itself — an empty coordinate list is emitted
as empty text, which re-parses as a missing element. -/

def lastCoord : List Coord → Option Coord
  | [] => none
  | [c] => some c
  | _ :: c :: rest => lastCoord (c :: rest)

def wfRing (r : List Coord) : Bool :=
  decide (4 ≤ r.length) && decide (r.head? = lastCoord r)

def wfRings (p : PolyRings) : Bool :=
  wfRing p.exterior && p.interiors.all wfRing

mutual

def wfGeom : Geom → Bool
  | .point _ => true
  | .lineString cs => decide (2 ≤ cs.length)
  | .polygon rings => wfRings rings
  | .multiPoint _ => true
  | .multiLineString ls => ls.all (fun l => decide (2 ≤ l.length))
  | .multiPolygon ps => ps.all wfRings
  | .geometryCollection gs => wfGeomList gs

def wfGeomList : List Geom → Bool
  | [] => true
  | g :: gs => wfGeom g && wfGeomList gs

end

/-! ## Bounds (`bbox_from_geom` / shapely `geom.bounds`)

shapely reports the coordinate bounds `(minx, miny, maxx, maxy)` of a
geometry; for an empty geometry the bounds are undefined (shapely
produces an empty tuple or NaNs, both outside the rational model), so
the result is an `Option`. -/

structure Rect4 where
  minx : Rat
  miny : Rat
  maxx : Rat
  maxy : Rat
  deriving DecidableEq, Repr

mutual

def geomCoords : Geom → List Coord
  | .point c => [c]
  | .lineString cs => cs
  | .polygon r => r.exterior ++ r.interiors.flatten
  | .multiPoint ps => ps
  | .multiLineString ls => ls.flatten
  | .multiPolygon ps => (ps.map (fun p => p.exterior ++ p.interiors.flatten)).flatten
  | .geometryCollection gs => geomCoordsList gs

def geomCoordsList : List Geom → List Coord
  | [] => []
  | g :: gs => geomCoords g ++ geomCoordsList gs

end

def boundsGeom (g : Geom) : Option Rect4 :=
  match geomCoords g with
  | [] => none
  | c :: rest =>
      some (rest.foldl
        (fun r c => ⟨min r.minx c.1, min r.miny c.2, max r.maxx c.1, max r.maxy c.2⟩)
        ⟨c.1, c.2, c.1, c.2⟩)

/-! ## Persistent state (`database.py` tables)

The `layers` and `features` tables as lists of typed rows.  REAL
columns are rationals, nullable columns are `Option`.  `datetime`
columns (`created_at` / `updated_at`) are wall-clock noise outside the
model and are omitted.  The monotonic AUTOINCREMENT id and the `uuid4`
generator are modelled by counters carried in the state. -/

structure LayerRow where
  id : Nat
  name : String
  srid : Nat
  geometryType : String
  featureCount : Nat
  bboxMinx : Option Rat
  bboxMiny : Option Rat
  bboxMaxx : Option Rat
  bboxMaxy : Option Rat
  deriving DecidableEq, Repr

structure FeatureRow where
  id : Nat
  layerId : Nat
  fid : String
  geometry : Option Wkb
  properties : List (String × PValue)
  bboxMinx : Option Rat
  bboxMiny : Option Rat
  bboxMaxx : Option Rat
  bboxMaxy : Option Rat

structure DB where
  layers : List LayerRow
  features : List FeatureRow
  nextFeatureId : Nat
  nextUuid : Nat

/-! ## Python string helpers -/

/-- `a or b` on optional strings: Python treats `None` and `""` as falsy. -/
def pyStrFalsy : Option String → Bool
  | none => true
  | some s => s = ""

def pyOr2 (a b : Option String) : Option String :=
  if pyStrFalsy a then b else a

/-- `COUNT or count` on optional ints: `None` and `0` are falsy. -/
def pyOrOptInt : Option Int → Option Int → Option Int
  | some v, b => if v = 0 then b else some v
  | none, b => b

/-- `STARTINDEX or startindex` on ints defaulted to 0. -/
def pyOrInt (a b : Int) : Int :=
  if a = 0 then b else a

/-- `str.strip()` (space whitespace). -/
def stripSpaces (s : String) : String :=
  ⟨((s.toList.dropWhile (· = ' ')).reverse.dropWhile (· = ' ')).reverse⟩

/-- `str.upper()`. -/
def pyUpper (s : String) : String :=
  ⟨s.toList.map Char.toUpper⟩

/-- `sub` occurs as a contiguous run in the character list. -/
def isInfixAux (sub : List Char) : List Char → Bool
  | [] => sub.isEmpty
  | c :: rest => sub.isPrefixOf (c :: rest) || isInfixAux sub rest

/-- `sub in s` (substring containment). -/
def containsSub (s sub : String) : Bool :=
  isInfixAux sub.toList s.toList

/-- `typenames.strip().split()[0]`: first whitespace-delimited token. -/
def firstToken (s : String) : String :=
  ⟨(s.toList.dropWhile (· = ' ')).takeWhile (· ≠ ' ')⟩

/-- `s.split()` worker: accumulate the current token (reversed),
emit it at each space run or at the end. -/
def splitTokensAux (cur : List Char) : List Char → List String
  | [] => if cur.isEmpty then [] else [⟨cur.reverse⟩]
  | c :: rest =>
      if c = ' ' then
        if cur.isEmpty then splitTokensAux [] rest
        else ⟨cur.reverse⟩ :: splitTokensAux [] rest
      else splitTokensAux (c :: cur) rest

/-- `s.split()` after `replace(",", " ")`: whitespace-split non-empty tokens. -/
def splitTokens (cs : List Char) : List String :=
  splitTokensAux [] cs

/-! ## services/wfs_service.py : `_query_features`

The SQL text is
`FROM features WHERE layer_id = ? AND NOT (bbox_maxx < ? OR bbox_minx > ?
OR bbox_maxy < ? OR bbox_miny > ?)` with the parameter list
`[layer_id, minx, maxx, miny, maxy]`.  SQL comparisons with NULL give
NULL, OR/NOT follow Kleene three-valued logic, and a WHERE clause keeps
a row only when the predicate is TRUE. -/

def sqlLt : Option Rat → Option Rat → Option Bool
  | some a, some b => some (decide (a < b))
  | _, _ => none

def sqlGt : Option Rat → Option Rat → Option Bool
  | some a, some b => some (decide (a > b))
  | _, _ => none

def sqlOr : Option Bool → Option Bool → Option Bool
  | some true, _ => some true
  | _, some true => some true
  | some false, some false => some false
  | _, _ => none

def sqlNot : Option Bool → Option Bool
  | some b => some (!b)
  | none => none

def sqlIsTrue : Option Bool → Bool
  | some true => true
  | _ => false

/-- The bbox WHERE clause for one row, with the parameter binding order
of the source: `(minx, maxx, miny, maxy)` against
`(bbox_maxx <, bbox_minx >, bbox_maxy <, bbox_miny >)`. -/
def bboxWhere (f : FeatureRow) (q : Rect4) : Bool :=
  sqlIsTrue (sqlNot
    (sqlOr (sqlOr (sqlOr
      (sqlLt f.bboxMaxx (some q.minx))
      (sqlGt f.bboxMinx (some q.maxx)))
      (sqlLt f.bboxMaxy (some q.miny)))
      (sqlGt f.bboxMiny (some q.maxy))))

def matchingRows (rows : List FeatureRow) (layerId : Nat) (bbox : Option Rect4) :
    List FeatureRow :=
  rows.filter (fun f => f.layerId == layerId &&
    (match bbox with
     | none => true
     | some q => bboxWhere f q))

/-- `ORDER BY id` (insertion sort; ids are unique). -/
def insertById (f : FeatureRow) : List FeatureRow → List FeatureRow
  | [] => [f]
  | g :: rest => if f.id ≤ g.id then f :: g :: rest else g :: insertById f rest

def sortById (rows : List FeatureRow) : List FeatureRow :=
  rows.foldr insertById []

/-- SQLite `LIMIT ? OFFSET ?`: a negative LIMIT means no limit, a
negative OFFSET behaves like zero. -/
def sqlPage (rows : List FeatureRow) (limit offset : Int) : List FeatureRow :=
  let dropped := rows.drop (max offset 0).toNat
  if limit < 0 then dropped else dropped.take limit.toNat

def queryFeatures (db : DB) (layer : LayerRow) (bbox : Option Rect4)
    (count : Option Int) (startindex : Int) (maxFeatures : Int) :
    List FeatureRow × Nat :=
  let matching := matchingRows db.features layer.id bbox
  let total := matching.length
  let limit : Int := min (count.getD maxFeatures) maxFeatures
  (sqlPage (sortById matching) limit startindex, total)

/-! ## GetFeature page (`build_get_feature_geojson` / `build_get_feature_gml`)

Both output branches share the layer lookup and `_query_features`; the
page below carries exactly the `numberMatched` / `numberReturned`
accounting and the selected rows (the GML/GeoJSON body rendering of the
rows is presentation and not modelled). -/

structure FeaturePage where
  numberMatched : Nat
  numberReturned : Nat
  rows : List FeatureRow

def buildGetFeature (typenames : String) (db : DB) (bbox : Option Rect4)
    (count : Option Int) (startindex : Int) (maxFeatures : Int) : FeaturePage :=
  let name := firstToken typenames
  match db.layers.find? (fun L => L.name == name) with
  | none => ⟨0, 0, []⟩
  | some layer =>
      let qr := queryFeatures db layer bbox count startindex maxFeatures
      ⟨qr.2, qr.1.length, qr.1⟩

/-! ## services/wfs_service.py : `build_describe` -/

def insertByName (L : LayerRow) : List LayerRow → List LayerRow
  | [] => [L]
  | M :: rest => if L.name ≤ M.name then L :: M :: rest else M :: insertByName L rest

/-- `ORDER BY name`. -/
def sortByName (layers : List LayerRow) : List LayerRow :=
  layers.foldr insertByName []

/-- The layers selected into the DescribeFeatureType schema document:
`typenames.replace(",", " ").split()` then `WHERE name IN (...)` (table
order), or all layers ordered by name. -/
def buildDescribe (typenames : Option String) (db : DB) : List LayerRow :=
  match typenames with
  | some tn =>
      let names := splitTokens (tn.toList.map (fun c => if c = ',' then ' ' else c))
      db.layers.filter (fun L => names.contains L.name)
  | none => sortByName db.layers

/-! ## routers/wfs.py : `_parse_bbox` and the KVP endpoint

`_parse_bbox` splits on commas and converts the first four tokens with
`float`; the model receives the four parsed values and the optional
fifth CRS token.  The swap applies when the CRS token contains `4326`
and (contains `EPSG` or does not contain `CRS84`). -/

structure BboxParam where
  v0 : Rat
  v1 : Rat
  v2 : Rat
  v3 : Rat
  crs : Option String
  deriving DecidableEq, Repr

def parseBboxKvp (b : BboxParam) : Rect4 :=
  match b.crs with
  | some c =>
      let c := stripSpaces c
      if containsSub c "4326" && (containsSub c "EPSG" || !containsSub c "CRS84") then
        ⟨b.v1, b.v0, b.v3, b.v2⟩
      else ⟨b.v0, b.v1, b.v2, b.v3⟩
  | none => ⟨b.v0, b.v1, b.v2, b.v3⟩

/-- The KVP query parameters of `wfs_endpoint` (GET; the POST
transaction branch is modelled by `executeTransaction` below). -/
structure Kvp where
  REQUEST : Option String
  request : Option String
  TYPENAMES : Option String
  TypeNames : Option String
  typenames : Option String
  TYPENAME : Option String
  TypeName : Option String
  bboxParam : Option BboxParam
  COUNT : Option Int
  count : Option Int
  STARTINDEX : Int
  startindex : Int
  OUTPUTFORMAT : Option String
  outputFormat : Option String
  outputformat : Option String

inductive WfsHttpResult where
  | capabilities (layers : List LayerRow)
  | describe (layers : List LayerRow)
  | featureCollection (isJson : Bool) (page : FeaturePage)
  | clientError (status : Nat) (detail : String)

def wfsEndpointGet (p : Kvp) (db : DB) (maxFeatures : Int) : WfsHttpResult :=
  let req := stripSpaces ((pyOr2 p.REQUEST p.request).getD "")
  let typeNames := pyOr2 p.TYPENAMES (pyOr2 p.TypeNames (pyOr2 p.typenames
    (pyOr2 p.TYPENAME p.TypeName)))
  let reqCount := pyOrOptInt p.COUNT p.count
  let reqStart := pyOrInt p.STARTINDEX p.startindex
  let outputFmt := (pyOr2 p.OUTPUTFORMAT (pyOr2 p.outputFormat p.outputformat)).getD ""
  let reqUpper := pyUpper req
  if reqUpper = "GETCAPABILITIES" ∨ req = "" then .capabilities (sortByName db.layers)
  else if reqUpper = "DESCRIBEFEATURETYPE" then .describe (buildDescribe typeNames db)
  else if reqUpper = "GETFEATURE" then
    if pyStrFalsy typeNames then
      .clientError 400 "TYPENAMES parameter is required for GetFeature"
    else
      let parsedBbox := p.bboxParam.map parseBboxKvp
      let fmtLower := ⟨outputFmt.toList.map Char.toLower⟩
      let isJson := containsSub fmtLower "json" || containsSub fmtLower "geojson"
      .featureCollection isJson
        (buildGetFeature (typeNames.getD "") db parsedBbox reqCount reqStart maxFeatures)
  else if reqUpper = "TRANSACTION" then
    .clientError 400 "Transaction requires XML POST body"
  else
    .clientError 400 ("Unknown REQUEST: " ++ req)

/-! ## services/transaction_service.py

`execute_transaction` opens `with db:` — the sqlite3 connection context
manager commits when the block exits normally and rolls back when an
exception escapes.  The model makes this explicit: the handlers thread
an updated state through an `Except`, and on error the ORIGINAL state
is returned alongside the exception report.  `uuid4` is modelled by the
`nextUuid` counter, and the pyproj reprojection engine is an explicit
function parameter applied when the source SRID differs from 4326. -/

def wfsTag (l : String) : String :=
  "\x7bhttp://www.opengis.net/wfs/2.0\x7d" ++ l

def fesTag (l : String) : String :=
  "\x7bhttp://www.opengis.net/fes/2.0\x7d" ++ l

inductive TxErr where
  | wfs (code msg : String)
  | exc (msg : String)
  deriving DecidableEq, Repr

/-- The Python loops thread state and raise on the first error. -/
def foldME (f : σ → α → Except TxErr σ) : σ → List α → Except TxErr σ
  | s, [] => .ok s
  | s, a :: rest =>
      match f s a with
      | .error e => .error e
      | .ok s' => foldME f s' rest

def lookupLayer (db : DB) (name : String) : Option LayerRow :=
  db.layers.find? (fun L => L.name == name)

/-- `_get_layer`: `_WfsError("InvalidParameterValue", ...)` when absent. -/
def getLayer (db : DB) (name : String) : Except TxErr LayerRow :=
  match lookupLayer db name with
  | none => .error (.wfs "InvalidParameterValue" ("Unknown feature type: " ++ name))
  | some L => .ok L

def gmlGeomTags : List String :=
  ["Point", "LineString", "Polygon", "MultiPoint", "MultiCurve",
   "MultiSurface", "MultiGeometry"]

def isGmlGeometry (e : Xml) : Bool :=
  gmlGeomTags.contains (localName e.tag)

def findGmlGeometry (parent : Xml) : Option Xml :=
  parent.children.find? (fun c => gmlGeomTags.contains (localName c.tag))

/-- Rendering of numeric text content back to a Python string (used
only when numeric text is read as a property value). -/
def renderNums (xs : List Rat) : String :=
  String.intercalate " " (xs.map (fun q => toString q.num ++
    (if q.den = 1 then "" else "/" ++ toString q.den)))

/-- `child.text or ""`. -/
def pyTextOrEmpty : XText → String
  | .none => ""
  | .str s => s
  | .nums xs => renderNums xs

/-- `elem.text` as an optional string. -/
def pyTextOpt : XText → Option String
  | .none => none
  | .str s => some s
  | .nums xs => some (renderNums xs)

/-- Python dict assignment: replace in place or append. -/
def dictSet (d : List (String × α)) (k : String) (v : α) : List (String × α) :=
  match d with
  | [] => [(k, v)]
  | (k0, v0) :: rest => if k0 = k then (k0, v) :: rest else (k0, v0) :: dictSet rest k v

/-- `fid[len(layer_name) + 1:]` when `fid.startswith(layer_name + ".")`. -/
def stripFidPrefix (layerName fid : String) : String :=
  if (layerName ++ ".").toList.isPrefixOf fid.toList then
    ⟨fid.toList.drop (layerName.toList.length + 1)⟩
  else fid

/-- `INSERT INTO features ...` (plain INSERT): a pre-existing
`(layer_id, fid)` violates `UNIQUE(layer_id, fid)` and raises
`sqlite3.IntegrityError`, which is not a `_WfsError`. -/
def dbInsertFeature (db : DB) (layerId : Nat) (fid : String) (geomW : Option Wkb)
    (props : List (String × PValue)) (bbox : Option Rect4) : Except TxErr DB :=
  if db.features.any (fun r => r.layerId == layerId && r.fid == fid) then
    .error (.exc "UNIQUE constraint failed: features.layer_id, features.fid")
  else
    .ok { db with
      features := db.features ++ [{
        id := db.nextFeatureId, layerId := layerId, fid := fid, geometry := geomW,
        properties := props,
        bboxMinx := bbox.map (·.minx), bboxMiny := bbox.map (·.miny),
        bboxMaxx := bbox.map (·.maxx), bboxMaxy := bbox.map (·.maxy) }],
      nextFeatureId := db.nextFeatureId + 1 }

/-- One grandchild of an Insert feature element: geometry wrapper,
direct GML geometry, or property. -/
def processFeatureChild (reproj : Nat → Geom → Geom)
    (acc : Option Wkb × Option Rect4 × List (String × String)) (child : Xml) :
    Except TxErr (Option Wkb × Option Rect4 × List (String × String)) :=
  let ctag := localName child.tag
  if ctag = "geometry" ∨ ctag = "the_geom" then
    match findGmlGeometry child with
    | none => .ok acc
    | some gmlElem =>
        match gml32ToGeom gmlElem with
        | .error msg => .error (.exc msg)
        | .ok gs =>
            let geom := if gs.2 ≠ 4326 then reproj gs.2 gs.1 else gs.1
            .ok (some (geomToWkb geom), boundsGeom geom, acc.2.2)
  else if isGmlGeometry child then
    match gml32ToGeom child with
    | .error msg => .error (.exc msg)
    | .ok gs =>
        let geom := if gs.2 ≠ 4326 then reproj gs.2 gs.1 else gs.1
        .ok (some (geomToWkb geom), boundsGeom geom, acc.2.2)
  else
    .ok (acc.1, acc.2.1, dictSet acc.2.2 ctag (pyTextOrEmpty child.text))

def addIfAbsent (xs : List Nat) (x : Nat) : List Nat :=
  if x ∈ xs then xs else xs ++ [x]

/-- One feature inside `wfs:Insert`: the tag local name is the layer
name; `gml:id` (namespaced or literal) or a fresh uuid as fid. -/
def processInsertFeature (reproj : Nat → Geom → Geom)
    (st : List (String × String) × List Nat × DB) (featureElem : Xml) :
    Except TxErr (List (String × String) × List Nat × DB) := do
  let (inserted, layerIds, db) := st
  let layerName := localName featureElem.tag
  let layer ← getLayer db layerName
  let layerIds := addIfAbsent layerIds layer.id
  let gid := pyOr2 (attrGet featureElem (gmlTag "id")) (attrGet featureElem "gml:id")
  let (fid0, db) :=
    if pyStrFalsy gid then ("gen-" ++ toString db.nextUuid,
      { db with nextUuid := db.nextUuid + 1 })
    else (gid.getD "", db)
  let fid := stripFidPrefix layerName fid0
  let res ← foldME (processFeatureChild reproj) (none, none, []) featureElem.children
  let db ← dbInsertFeature db layer.id fid res.1
    (res.2.2.map (fun kv => (kv.1, PValue.str kv.2))) res.2.1
  .ok (inserted ++ [(layerName, fid)], layerIds, db)

def handleInsert (reproj : Nat → Geom → Geom) (elem : Xml) (db : DB) :
    Except TxErr (List (String × String) × List Nat × DB) :=
  foldME (processInsertFeature reproj) ([], [], db) elem.children

mutual

/-- `elem.iter()`: the element itself followed by all descendants in
document order. -/
def iterAll : Xml → List Xml
  | .elem t a x cs => .elem t a x cs :: iterAllList cs

def iterAllList : List Xml → List Xml
  | [] => []
  | c :: rest => iterAll c ++ iterAllList rest

end

/-- `_parse_resource_ids`: every `fes:ResourceId` under every
`fes:Filter` descendant; `rid` with the `<layer>.` prefix stripped. -/
def parseResourceIds (elem : Xml) (layerName : String) : List String :=
  (((iterAll elem).filter (fun e => e.tag == fesTag "Filter")).map (fun filt =>
    ((iterAll filt).filter (fun e => e.tag == fesTag "ResourceId")).map (fun rid =>
      stripFidPrefix layerName ((attrGet rid "rid").getD "")))).flatten

/-- One `wfs:Property` child of `wfs:Update`. -/
def processUpdateProp (reproj : Nat → Geom → Geom)
    (st : List (String × Option String) × Option (Wkb × Option Rect4))
    (propElem : Xml) :
    Except TxErr (List (String × Option String) × Option (Wkb × Option Rect4)) :=
  let refElem := findChild propElem (wfsTag "ValueReference")
  let valElem := findChild propElem (wfsTag "Value")
  match refElem with
  | none => .ok st
  | some r =>
      match pyTextOpt r.text with
      | none => .ok st
      | some ftext =>
          let fieldName := stripSpaces ftext
          if fieldName = "geometry" ∨ fieldName = "the_geom" then
            match valElem with
            | none => .ok st
            | some v =>
                match findGmlGeometry v with
                | none => .ok st
                | some gmlElem =>
                    match gml32ToGeom gmlElem with
                    | .error msg => .error (.exc msg)
                    | .ok gs =>
                        let geom := if gs.2 ≠ 4326 then reproj gs.2 gs.1 else gs.1
                        .ok (st.1, some (geomToWkb geom, boundsGeom geom))
          else
            .ok (dictSet st.1 fieldName (valElem.bind (fun v => pyTextOpt v.text)), st.2)

/-- `existing.update(prop_updates)`: a `None` value stores JSON null. -/
def mergeProps (existing : List (String × PValue))
    (updates : List (String × Option String)) : List (String × PValue) :=
  updates.foldl (fun d kv =>
    dictSet d kv.1 (match kv.2 with
      | none => PValue.null
      | some s => PValue.str s)) existing

/-- One target fid of `wfs:Update`: fetch the row, build the SET list,
update and count only when the row exists and something is set. -/
def applyUpdateRow (layer : LayerRow) (propUpdates : List (String × Option String))
    (geomUpdate : Option (Wkb × Option Rect4)) (st : Nat × DB) (fid : String) :
    Nat × DB :=
  let (updated, db) := st
  match db.features.find? (fun r => r.layerId == layer.id && r.fid == fid) with
  | none => (updated, db)
  | some row =>
      if propUpdates.isEmpty && geomUpdate.isNone then (updated, db)
      else
        let newProps := if propUpdates = [] then row.properties
          else mergeProps row.properties propUpdates
        let newRow :=
          match geomUpdate with
          | none => { row with properties := newProps }
          | some gu => { row with
              properties := newProps,
              geometry := some gu.1,
              bboxMinx := gu.2.map (·.minx), bboxMiny := gu.2.map (·.miny),
              bboxMaxx := gu.2.map (·.maxx), bboxMaxy := gu.2.map (·.maxy) }
        (updated + 1,
          { db with features := db.features.map (fun r => if r.id == row.id then newRow else r) })

def handleUpdate (reproj : Nat → Geom → Geom) (elem : Xml) (db : DB) :
    Except TxErr (Nat × Nat × DB) := do
  let typeName := (pyOr2 (attrGet elem "typeName") (attrGet elem "typeNames")).getD ""
  let layer ← getLayer db typeName
  let pu ← foldME (processUpdateProp reproj) ([], none)
    (elem.children.filter (fun c => c.tag == wfsTag "Property"))
  let fids := parseResourceIds elem layer.name
  if fids = [] then .ok (0, layer.id, db)
  else
    let res := fids.foldl (applyUpdateRow layer pu.1 pu.2) (0, db)
    .ok (res.1, layer.id, res.2)

def handleDelete (elem : Xml) (db : DB) : Except TxErr (Nat × Nat × DB) := do
  let typeName := (pyOr2 (attrGet elem "typeName") (attrGet elem "typeNames")).getD ""
  let layer ← getLayer db typeName
  let fids := parseResourceIds elem layer.name
  if fids = [] then .ok (0, layer.id, db)
  else
    let removed := db.features.filter (fun r => r.layerId == layer.id && fids.contains r.fid)
    let kept := db.features.filter (fun r => !(r.layerId == layer.id && fids.contains r.fid))
    .ok (removed.length, layer.id, { db with features := kept })

def aggMin : List Rat → Option Rat
  | [] => none
  | x :: rest => some (rest.foldl min x)

def aggMax : List Rat → Option Rat
  | [] => none
  | x :: rest => some (rest.foldl max x)

/-- `_update_layer_stats` of the transaction service: COUNT(*) over the
layer, MIN/MAX aggregates over the bbox columns (SQL aggregates skip
NULLs and give NULL on the empty set). -/
def updateLayerStats (db : DB) (layerId : Nat) : DB :=
  let rows := db.features.filter (fun r => r.layerId == layerId)
  { db with layers := db.layers.map (fun L =>
      if L.id == layerId then
        { L with
          featureCount := rows.length,
          bboxMinx := aggMin (rows.filterMap (·.bboxMinx)),
          bboxMiny := aggMin (rows.filterMap (·.bboxMiny)),
          bboxMaxx := aggMax (rows.filterMap (·.bboxMaxx)),
          bboxMaxy := aggMax (rows.filterMap (·.bboxMaxy)) }
      else L) }

structure TxAcc where
  inserted : List (String × String)
  updated : Nat
  deleted : Nat
  affected : List Nat
  db : DB

/-- One direct child of `wfs:Transaction`; unknown tags are skipped. -/
def processTxChild (reproj : Nat → Geom → Geom) (acc : TxAcc) (child : Xml) :
    Except TxErr TxAcc :=
  let tag := localName child.tag
  if tag = "Insert" then do
    let r ← handleInsert reproj child acc.db
    .ok { acc with
      inserted := acc.inserted ++ r.1
      affected := r.2.1.foldl addIfAbsent acc.affected
      db := r.2.2 }
  else if tag = "Update" then do
    let r ← handleUpdate reproj child acc.db
    .ok { acc with
      updated := acc.updated + r.1
      affected := if r.2.1 ≠ 0 then addIfAbsent acc.affected r.2.1 else acc.affected
      db := r.2.2 }
  else if tag = "Delete" then do
    let r ← handleDelete child acc.db
    .ok { acc with
      deleted := acc.deleted + r.1
      affected := if r.2.1 ≠ 0 then addIfAbsent acc.affected r.2.1 else acc.affected
      db := r.2.2 }
  else .ok acc

/-- The `wfs:TransactionResponse` / `ows:ExceptionReport` payloads (the
XML rendering of either is injective presentation). -/
inductive TxResponse where
  | success (inserted : List (String × String)) (totalUpdated totalDeleted : Nat)
  | exceptionReport (code : String) (message : String)
  deriving DecidableEq, Repr

def toExceptionReport : TxErr → TxResponse
  | .wfs code msg => .exceptionReport code msg
  | .exc msg => .exceptionReport "NoApplicableCode" ("Transaction failed: " ++ msg)

def runTxBody (reproj : Nat → Geom → Geom) (children : List Xml) (db : DB) :
    Except TxErr TxAcc := do
  let acc ← foldME (processTxChild reproj) ⟨[], 0, 0, [], db⟩ children
  .ok { acc with db := acc.affected.foldl updateLayerStats acc.db }

/-- `execute_transaction` on an already-parsed XML body. -/
def executeTransaction (reproj : Nat → Geom → Geom) (root : Xml) (db : DB) :
    TxResponse × DB :=
  if localName root.tag ≠ "Transaction" then
    (.exceptionReport "OperationNotSupported"
      ("Expected wfs:Transaction, got " ++ localName root.tag), db)
  else
    match runTxBody reproj root.children db with
    | .error e => (toExceptionReport e, db)
    | .ok acc => (.success acc.inserted acc.updated acc.deleted, acc.db)

/-! ## services/import_service.py

The file decoding (json / fiona / csv readers and shapely `shape`) is
external; the model receives the per-feature outcome of step 4 of the
ingest algorithm — a record or an error message per input feature — and
performs the aggregation, chunked insertion and bbox union that the
claims are about. -/

structure Rec where
  layerId : Nat
  fid : String
  geometry : Wkb
  properties : List (String × PValue)
  bboxMinx : Option Rat
  bboxMiny : Option Rat
  bboxMaxx : Option Rat
  bboxMaxy : Option Rat

/-- `_make_record`: WKB and bbox computed from the same (already
reprojected) geometry; provided fid coerced to string, else a fresh
opaque identifier (passed in by the caller, mirroring `uuid4`). -/
def makeRecord (layerId : Nat) (geom : Geom) (props : List (String × PValue))
    (fid : Option String) (uuidToken : String) : Rec :=
  let bbox := boundsGeom geom
  { layerId := layerId, fid := fid.getD uuidToken, geometry := geomToWkb geom,
    properties := props,
    bboxMinx := bbox.map (·.minx), bboxMiny := bbox.map (·.miny),
    bboxMaxx := bbox.map (·.maxx), bboxMaxy := bbox.map (·.maxy) }

/-- `INSERT OR IGNORE` of one chunk via `executemany`: a pre-existing
`(layer_id, fid)` is silently skipped; a missing layer violates the
foreign key (`PRAGMA foreign_keys=ON`; OR IGNORE does not cover foreign
key violations) and fails the whole chunk. -/
def execManyOrIgnore (db : DB) (chunk : List Rec) : Except String DB :=
  match chunk with
  | [] => .ok db
  | r :: rest =>
      if !(db.layers.any (fun L => L.id == r.layerId)) then
        .error "FOREIGN KEY constraint failed"
      else if db.features.any (fun f => f.layerId == r.layerId && f.fid == r.fid) then
        execManyOrIgnore db rest
      else
        execManyOrIgnore
          { db with
            features := db.features ++ [{
              id := db.nextFeatureId, layerId := r.layerId, fid := r.fid,
              geometry := some r.geometry, properties := r.properties,
              bboxMinx := r.bboxMinx, bboxMiny := r.bboxMiny,
              bboxMaxx := r.bboxMaxx, bboxMaxy := r.bboxMaxy }],
            nextFeatureId := db.nextFeatureId + 1 }
          rest

/-- `_batch_insert`: chunks of 500, each its own `with db:` unit of
work; a failed chunk counts all its rows as failed and appends one
message; chunks are independent. -/
def batchInsertGo : DB → List Rec → Nat → Nat × Nat × List String × DB
  | db, [], _ => (0, 0, [], db)
  | db, rec0 :: recs, k =>
      let chunk := (rec0 :: recs).take 500
      let rest := (rec0 :: recs).drop 500
      match execManyOrIgnore db chunk with
      | .ok db' =>
          let r := batchInsertGo db' rest (k + 1)
          (chunk.length + r.1, r.2.1, r.2.2.1, r.2.2.2)
      | .error msg =>
          let r := batchInsertGo db rest (k + 1)
          (r.1, chunk.length + r.2.1,
            ("Batch insert error (chunk " ++ toString k ++ "): " ++ msg) :: r.2.2.1,
            r.2.2.2)
  termination_by _ records _ => records.length
  decreasing_by
    all_goals simp [List.length_drop]
    all_goals omega

def batchInsert (db : DB) (records : List Rec) : Nat × Nat × List String × DB :=
  batchInsertGo db records 0

/-- The per-feature loop shared by the format importers: successful
parses become records, failures become index-tagged messages. -/
def importLoopGo (tagFn : Nat → String → String) (i : Nat) :
    List (Except String Rec) → List Rec × List String
  | [] => ([], [])
  | .ok r :: rest =>
      let p := importLoopGo tagFn (i + 1) rest
      (r :: p.1, p.2)
  | .error m :: rest =>
      let p := importLoopGo tagFn (i + 1) rest
      (p.1, tagFn i m :: p.2)

def featureTag (i : Nat) (m : String) : String :=
  "Feature " ++ toString i ++ ": " ++ m

def rowTag (i : Nat) (m : String) : String :=
  "Row " ++ toString (i + 1) ++ ": " ++ m

/-- `_compute_bbox`: componentwise union over the records carrying a
bbox (`_make_record` sets all four columns together), or None. -/
def computeBbox (records : List Rec) : Option Rect4 :=
  let vals := records.filterMap (fun r =>
    match r.bboxMinx, r.bboxMiny, r.bboxMaxx, r.bboxMaxy with
    | some a, some b, some c, some d => some (Rect4.mk a b c d)
    | _, _, _, _ => none)
  match vals with
  | [] => none
  | v :: rest =>
      some ⟨(rest.map (·.minx)).foldl min v.minx, (rest.map (·.miny)).foldl min v.miny,
        (rest.map (·.maxx)).foldl max v.maxx, (rest.map (·.maxy)).foldl max v.maxy⟩

structure ImportResult where
  imported : Nat
  failed : Nat
  errors : List String
  bbox : Option Rect4

/-- `_import_geojson` aggregation: note
`features_failed = failed + len(errors) - len(batch_errors)`. -/
def importGeojsonAgg (db : DB) (feats : List (Except String Rec)) :
    ImportResult × DB :=
  let p := importLoopGo featureTag 0 feats
  let b := batchInsert db p.1
  let errors := p.2 ++ b.2.2.1
  (⟨b.1, b.2.1 + errors.length - b.2.2.1.length, errors, computeBbox p.1⟩, b.2.2.2)

/-- `_import_via_fiona` aggregation (shapefile and GeoPackage):
`features_failed = failed`. -/
def importFionaAgg (db : DB) (feats : List (Except String Rec)) :
    ImportResult × DB :=
  let p := importLoopGo featureTag 0 feats
  let b := batchInsert db p.1
  (⟨b.1, b.2.1, p.2 ++ b.2.2.1, computeBbox p.1⟩, b.2.2.2)

/-- `_import_csv` aggregation: row-tagged messages,
`features_failed = failed`. -/
def importCsvAgg (db : DB) (feats : List (Except String Rec)) :
    ImportResult × DB :=
  let p := importLoopGo rowTag 0 feats
  let b := batchInsert db p.1
  (⟨b.1, b.2.1, p.2 ++ b.2.2.1, computeBbox p.1⟩, b.2.2.2)

/-! ## The stored-feature bbox invariant (claim C3's property) -/

def featureBboxInv (r : FeatureRow) : Prop :=
  ∀ w, r.geometry = some w → ∃ b, boundsGeom (wkbToGeom w) = some b ∧
    r.bboxMinx = some b.minx ∧ r.bboxMiny = some b.miny ∧
    r.bboxMaxx = some b.maxx ∧ r.bboxMaxy = some b.maxy

def recBboxInv (r : Rec) : Prop :=
  ∃ b, boundsGeom (wkbToGeom r.geometry) = some b ∧
    r.bboxMinx = some b.minx ∧ r.bboxMiny = some b.miny ∧
    r.bboxMaxx = some b.maxx ∧ r.bboxMaxy = some b.maxy

/-- Boundedness of every GML geometry reachable in a transaction body:
whatever parses under an element of the tree has defined bounds (rules
out the degenerate empty multi-geometries whose NaN bounds are outside
the rational model). -/
def xmlGeomsBounded (root : Xml) : Prop :=
  ∀ e ∈ iterAll root, ∀ g srid, gml32ToGeom e = .ok (g, srid) →
    (boundsGeom g).isSome = true

/-- Bounds-definedness is preserved by the reprojection collaborator
(pyproj transforms coordinates pointwise). -/
def reprojBounded (reproj : Nat → Geom → Geom) : Prop :=
  ∀ s g, (boundsGeom g).isSome = true → (boundsGeom (reproj s g)).isSome = true

/-- Every stored feature row satisfies the bbox invariant. -/
def dbInv (db : DB) : Prop :=
  ∀ fr ∈ db.features, featureBboxInv fr

/-- Invariant of the `(geometry_wkb, bbox, properties)` accumulator of
the Insert feature-child loop: the bbox always is the bounds of the
accumulated geometry, and those bounds are defined. -/
def geomAccInv (acc : Option Wkb × Option Rect4 × List (String × String)) : Prop :=
  ∀ w, acc.1 = some w →
    acc.2.1 = boundsGeom (wkbToGeom w) ∧ (boundsGeom (wkbToGeom w)).isSome = true

/-- Invariant of the `(prop_updates, geom_update)` accumulator of the
Update property loop. -/
def geomUpdInv
    (st : List (String × Option String) × Option (Wkb × Option Rect4)) : Prop :=
  ∀ w b, st.2 = some (w, b) →
    b = boundsGeom (wkbToGeom w) ∧ (boundsGeom (wkbToGeom w)).isSome = true

/-! ## Spec-side definitions (used to state claims, not taken from the
source) -/

/-- Modelled from the claim: all values observed for a field across the
sample, in order. -/
def obsValues (sample : List Props) (k : String) : List PValue :=
  ((sample.flatten).filter (fun kv => kv.1 == k)).map (·.2)

/-- Modelled from the claim: the bbox of a record when its four columns
are set. -/
def recBbox (r : Rec) : Option Rect4 :=
  match r.bboxMinx, r.bboxMiny, r.bboxMaxx, r.bboxMaxy with
  | some a, some b, some c, some d => some ⟨a, b, c, d⟩
  | _, _, _, _ => none

/-- Modelled from the claim: componentwise bbox union. -/
def rectUnion (a b : Rect4) : Rect4 :=
  ⟨min a.minx b.minx, min a.miny b.miny, max a.maxx b.maxx, max a.maxy b.maxy⟩

/-- Modelled from the claim: decomposition into insert chunks of 500. -/
def chunks500 : List Rec → List (List Rec)
  | [] => []
  | rec0 :: recs => ((rec0 :: recs).take 500) :: chunks500 ((rec0 :: recs).drop 500)
  termination_by l => l.length
  decreasing_by
    all_goals simp [List.length_drop]
    all_goals omega

/-- Modelled from the claim: walk the chunk list, each chunk its own
unit of work. -/
def batchSpecGo (db : DB) (chunks : List (List Rec)) (k : Nat) :
    Nat × Nat × List String × DB :=
  match chunks with
  | [] => (0, 0, [], db)
  | c :: rest =>
      match execManyOrIgnore db c with
      | .ok db' =>
          let r := batchSpecGo db' rest (k + 1)
          (c.length + r.1, r.2.1, r.2.2.1, r.2.2.2)
      | .error msg =>
          let r := batchSpecGo db rest (k + 1)
          (r.1, c.length + r.2.1,
            ("Batch insert error (chunk " ++ toString k ++ "): " ++ msg) :: r.2.2.1,
            r.2.2.2)

def numberReturnedOf : WfsHttpResult → Option Nat
  | .featureCollection _ p => some p.numberReturned
  | _ => none

/-! ## Concrete instances used by counterexamples and witnesses -/

def demoReproj : Nat → Geom → Geom := fun _ g => g

def roadsLayer : LayerRow := ⟨1, "roads", 4326, "", 0, none, none, none, none⟩

def roadsFeature : FeatureRow := ⟨1, 1, "r1", none, [], some 0, some 0, some 1, some 1⟩

def demoDb : DB := ⟨[roadsLayer], [roadsFeature], 2, 0⟩

/-- The S4 scenario: a valid insert into `roads` followed by an insert
into an unknown layer. -/
def s4Tx : Xml :=
  .elem (wfsTag "Transaction") [] .none
    [.elem (wfsTag "Insert") [] .none
      [.elem "roads" [("gml:id", "roads.n1")] .none
        [.elem "name" [] (.str "A") []]],
     .elem (wfsTag "Insert") [] .none
      [.elem "unknown" [] .none []]]

/-- A transaction inserting a feature whose `(layer_id, fid)` already
exists. -/
def dupTx : Xml :=
  .elem (wfsTag "Transaction") [] .none
    [.elem (wfsTag "Insert") [] .none
      [.elem "roads" [("gml:id", "roads.r1")] .none
        [.elem "lanes" [] (.str "2") []]]]

def kvpNone : Kvp :=
  { REQUEST := none, request := none, TYPENAMES := none, TypeNames := none,
    typenames := none, TYPENAME := none, TypeName := none, bboxParam := none,
    COUNT := none, count := none, STARTINDEX := 0, startindex := 0,
    OUTPUTFORMAT := none, outputFormat := none, outputformat := none }

def kvpCount0 : Kvp :=
  { kvpNone with
    REQUEST := some "GetFeature"
    TYPENAMES := some "roads"
    COUNT := some 0 }

/-- One geometry of each of the seven classes. -/
def allKindsGeom : Geom :=
  .geometryCollection
    [.point (1, 2),
     .lineString [(0, 0), (1, 0)],
     .polygon ⟨[(0, 0), (1, 0), (1, 1), (0, 0)], [[(0, 0), (1, 0), (1, 1), (0, 0)]]⟩,
     .multiPoint [(5, 6)],
     .multiLineString [[(0, 0), (2, 2)]],
     .multiPolygon [⟨[(0, 0), (1, 0), (1, 1), (0, 0)], []⟩],
     .geometryCollection []]

/-- A GML Point tagged with the OGC CRS84 URN. -/
def crs84PointElem : Xml :=
  .elem (gmlTag "Point") [("srsName", "urn:ogc:def:crs:OGC:1.3:CRS84")] .none
    [.elem (gmlTag "pos") [] (.nums [1, 2]) []]

/-- A transaction inserting a feature whose geometry is an EMPTY
`gml:MultiPoint`: the parser accepts it (no members), shapely
constructs it, and its bounds are undefined (NaN / empty), which
sqlite stores as NULL bbox columns. -/
def emptyMpTx : Xml :=
  .elem (wfsTag "Transaction") [] .none
    [.elem (wfsTag "Insert") [] .none
      [.elem "roads" [("gml:id", "roads.m1")] .none
        [.elem (gmlTag "MultiPoint") [] .none []]]]

/-- A transaction inserting a feature with a non-empty Point geometry. -/
def ptTx : Xml :=
  .elem (wfsTag "Transaction") [] .none
    [.elem (wfsTag "Insert") [] .none
      [.elem "roads" [("gml:id", "roads.p1")] .none
        [.elem (gmlTag "Point") [] .none
          [.elem (gmlTag "pos") [] (.nums [1, 2]) []]]]]

/-! ## Round-trip lemmas for the GML codec -/

theorem natToDigits_ne_nil (n : Nat) : natToDigits n ≠ [] := by
  rw [natToDigits]
  split <;> simp

theorem digitChar_isDigit {d : Nat} (h : d < 10) : (digitChar d).isDigit = true := by
  interval_cases d <;> decide

theorem digitVal_digitChar {d : Nat} (h : d < 10) : digitVal (digitChar d) = d := by
  interval_cases d <;> decide

theorem natToDigits_all_digits (n : Nat) :
    ∀ c ∈ natToDigits n, c.isDigit = true := by
  induction n using Nat.strong_induction_on with
  | _ n ih =>
    rw [natToDigits]
    split
    · intro c hc
      simp only [List.mem_singleton] at hc
      subst hc
      exact digitChar_isDigit (by omega)
    · intro c hc
      rcases List.mem_append.1 hc with h | h
      · exact ih (n / 10) (Nat.div_lt_self (by omega) (by omega)) c h
      · simp only [List.mem_singleton] at h
        subst h
        exact digitChar_isDigit (Nat.mod_lt _ (by omega))

theorem foldl_digits_acc (n : Nat) :
    ∀ acc, (natToDigits n).foldl (fun acc c => 10 * acc + digitVal c) acc =
      acc * 10 ^ (natToDigits n).length + n := by
  induction n using Nat.strong_induction_on with
  | _ n ih =>
    intro acc
    rw [natToDigits]
    split
    · next h =>
      simp [digitVal_digitChar h]
      ring
    · next h =>
      rw [List.foldl_append, ih (n / 10) (Nat.div_lt_self (by omega) (by omega)) acc]
      simp only [List.foldl_cons, List.foldl_nil, List.length_append,
        List.length_singleton]
      rw [digitVal_digitChar (Nat.mod_lt _ (by omega))]
      have : acc * 10 ^ ((natToDigits (n / 10)).length + 1) =
          10 * (acc * 10 ^ (natToDigits (n / 10)).length) := by ring
      rw [this]
      omega

theorem digitsToNat_natToDigits (n : Nat) : digitsToNat (natToDigits n) = n := by
  have := foldl_digits_acc n 0
  simpa [digitsToNat] using this

theorem epsgSearch_cons_none {c : Char} {l : List Char}
    (h : matchEpsgAt (c :: l) = none) : epsgSearch (c :: l) = epsgSearch l := by
  simp only [epsgSearch, h]

theorem epsgSearch_srsUrn (n : Nat) :
    epsgSearch (srsUrnChars ++ natToDigits n) = some n := by
  have hdig : (natToDigits n).takeWhile Char.isDigit = natToDigits n :=
    List.takeWhile_eq_self_iff.2 (natToDigits_all_digits n)
  have hempty : (natToDigits n).isEmpty = false := by
    cases hnd : natToDigits n with
    | nil => exact absurd hnd (natToDigits_ne_nil n)
    | cons d ds => rfl
  have hmatch : matchEpsgAt ('E' :: 'P' :: 'S' :: 'G' :: ':' :: ':' :: natToDigits n) =
      some n := by
    simp only [matchEpsgAt]
    rw [if_pos (by decide), hdig, hempty]
    simp [digitsToNat_natToDigits]
  simp only [srsUrnChars, List.cons_append, List.nil_append]
  rw [epsgSearch_cons_none (by simp +decide [matchEpsgAt]),
    epsgSearch_cons_none (by simp +decide [matchEpsgAt]),
    epsgSearch_cons_none (by simp +decide [matchEpsgAt]),
    epsgSearch_cons_none (by simp +decide [matchEpsgAt]),
    epsgSearch_cons_none (by simp +decide [matchEpsgAt]),
    epsgSearch_cons_none (by simp +decide [matchEpsgAt]),
    epsgSearch_cons_none (by simp +decide [matchEpsgAt]),
    epsgSearch_cons_none (by simp +decide [matchEpsgAt]),
    epsgSearch_cons_none (by simp +decide [matchEpsgAt]),
    epsgSearch_cons_none (by simp +decide [matchEpsgAt]),
    epsgSearch_cons_none (by simp +decide [matchEpsgAt]),
    epsgSearch_cons_none (by simp +decide [matchEpsgAt]),
    epsgSearch_cons_none (by simp +decide [matchEpsgAt]),
    epsgSearch_cons_none (by simp +decide [matchEpsgAt]),
    epsgSearch_cons_none (by simp +decide [matchEpsgAt]),
    epsgSearch_cons_none (by simp +decide [matchEpsgAt])]
  simp only [epsgSearch, hmatch]


theorem coordsText_nil_iff (cs : List Coord) (swap : Bool) :
    coordsText cs swap = [] ↔ cs = [] := by
  cases cs with
  | nil => simp [coordsText]
  | cons c rest =>
      constructor
      · intro h
        rcases c with ⟨x, y⟩
        cases swap <;> simp [coordsText] at h
      · intro h
        cases h

theorem parsePoslist_coordsText (cs : List Coord) (swap : Bool) :
    parsePoslist (coordsText cs swap) swap = .ok cs := by
  induction cs with
  | nil => cases swap <;> rfl
  | cons c rest ih =>
      rcases c with ⟨x, y⟩
      cases swap <;> simp [coordsText, parsePoslist, ih, bind, Except.bind]

theorem parsePointCoord_pointGml (c : Coord) (srs : String) (swap : Bool) :
    parsePointCoord (pointGml c srs swap) swap = .ok c := by
  rcases c with ⟨x, y⟩
  cases swap <;>
    simp [parsePointCoord, pointGml, findText, Xml.children, Xml.text, Xml.tag,
      List.find?, parsePos, bind, Except.bind]

theorem parseLinestringCoords_linestringGml (cs : List Coord) (srs : String)
    (swap : Bool) (h : cs ≠ []) :
    parseLinestringCoords (linestringGml cs srs swap) swap = .ok cs := by
  have hne : coordsText cs swap ≠ [] := fun hc => h ((coordsText_nil_iff cs swap).1 hc)
  rcases hx : coordsText cs swap with _ | ⟨a, rest⟩
  · exact absurd hx hne
  · have hp : parsePoslist (a :: rest) swap = .ok cs := hx ▸ parsePoslist_coordsText cs swap
    simp [parseLinestringCoords, linestringGml, findText, Xml.children, Xml.tag, Xml.text,
      List.find?, hx, hp, bind, Except.bind]

theorem parseLinearring_ringGml (r : List Coord) (swap : Bool) (h : r ≠ []) :
    parseLinearring (ringGml r swap) swap = .ok r := by
  have hne : coordsText r swap ≠ [] := fun hc => h ((coordsText_nil_iff r swap).1 hc)
  rcases hx : coordsText r swap with _ | ⟨a, rest⟩
  · exact absurd hx hne
  · have hp : parsePoslist (a :: rest) swap = .ok r := hx ▸ parsePoslist_coordsText r swap
    simp [parseLinearring, ringGml, findText, Xml.children, Xml.tag, Xml.text,
      List.find?, hx, hp, bind, Except.bind]

theorem findChild_interior (r : List Coord) (swap : Bool) :
    findChild (Xml.elem (gmlTag "interior") [] .none [ringGml r swap])
      (gmlTag "LinearRing") = some (ringGml r swap) := by
  simp [findChild, Xml.children, ringGml, Xml.tag, List.find?]

theorem mapMExcept_interiors (ints : List (List Coord)) (swap : Bool)
    (h : ∀ r ∈ ints, r ≠ []) :
    mapMExcept (fun r => parseLinearring r swap)
      ((ints.map (fun r => Xml.elem (gmlTag "interior") [] .none [ringGml r swap])).filterMap
        (fun i => findChild i (gmlTag "LinearRing"))) = .ok ints := by
  induction ints with
  | nil => rfl
  | cons r rest ih =>
      have hr := parseLinearring_ringGml r swap (h r (by simp))
      have hrest := ih (fun x hx => h x (by simp [hx]))
      simp only [List.map_cons, List.filterMap_cons, findChild_interior]
      simp only [mapMExcept, hr, hrest, bind, Except.bind]

theorem parsePolygonRings_polygonGml (rings : PolyRings) (srs : String) (swap : Bool)
    (hext : rings.exterior ≠ []) (hints : ∀ r ∈ rings.interiors, r ≠ []) :
    parsePolygonRings (polygonGml rings srs swap) swap = .ok rings := by
  rcases rings with ⟨ext, ints⟩
  have hring := parseLinearring_ringGml ext swap hext
  have h1 : findChild (polygonGml ⟨ext, ints⟩ srs swap) (gmlTag "exterior") =
      some (Xml.elem (gmlTag "exterior") [] .none [ringGml ext swap]) := by
    simp [findChild, polygonGml, Xml.children, List.find?, Xml.tag]
  have h2 : findChild (Xml.elem (gmlTag "exterior") [] .none [ringGml ext swap])
      (gmlTag "LinearRing") = some (ringGml ext swap) := by
    simp [findChild, Xml.children, ringGml, Xml.tag, List.find?]
  have hfilter : ((polygonGml ⟨ext, ints⟩ srs swap).children).filter
        (fun c => c.tag == gmlTag "interior") =
      ints.map (fun r => Xml.elem (gmlTag "interior") [] XText.none [ringGml r swap]) := by
    simp only [polygonGml, Xml.children]
    rw [List.filter_cons_of_neg (by simp [Xml.tag]; decide)]
    exact List.filter_eq_self.2 (by
      intro a ha
      rcases List.mem_map.1 ha with ⟨r, _, hr⟩
      subst hr
      simp [Xml.tag])
  have hmap := mapMExcept_interiors ints swap hints
  rw [parsePolygonRings]
  simp only [h1]
  simp only [h2]
  simp only [hring, hfilter, hmap, bind, Except.bind]

theorem mapMExcept_map {α β : Type} (ps : List α) (f : α → Xml)
    (partFn : Xml → Except String β) (val : α → β)
    (h : ∀ p ∈ ps, partFn (f p) = .ok (val p)) :
    mapMExcept partFn (ps.map f) = .ok (ps.map val) := by
  induction ps with
  | nil => rfl
  | cons p rest ih =>
      simp only [List.map_cons, mapMExcept, h p (by simp),
        ih (fun x hx => h x (by simp [hx])), bind, Except.bind]

theorem memberWrap_children_head {α : Type} (memberTag : String) (emitPart : α → Xml)
    (p : α) : (memberWrap memberTag (emitPart p)).children.head? = some (emitPart p) := rfl

theorem filterMap_head_memberWrap {α : Type} (ps : List α) (memberTag : String)
    (emitPart : α → Xml) :
    (ps.map (fun q => memberWrap memberTag (emitPart q))).filterMap
      (fun m => m.children.head?) = ps.map emitPart := by
  induction ps with
  | nil => rfl
  | cons p rest ih =>
      simp only [List.map_cons, List.filterMap_cons, memberWrap_children_head, ih]

theorem parseMulti_memberWrap {α β : Type} (ps : List α) (memberTag tag : String)
    (attrs : List (String × String)) (txt : XText)
    (emitPart : α → Xml) (partFn : Xml → Except String β) (val : α → β)
    (h : ∀ p ∈ ps, partFn (emitPart p) = .ok (val p)) :
    parseMulti (.elem tag attrs txt (ps.map (fun p => memberWrap memberTag (emitPart p))))
      memberTag partFn = .ok (ps.map val) := by
  have hfilter : (ps.map (fun q => memberWrap memberTag (emitPart q))).filter
        (fun c => c.tag == gmlTag memberTag) =
      ps.map (fun q => memberWrap memberTag (emitPart q)) :=
    List.filter_eq_self.2 (by
      intro a ha
      rcases List.mem_map.1 ha with ⟨q, _, hq⟩
      subst hq
      simp [memberWrap, Xml.tag])
  have hch : (Xml.elem tag attrs txt
      (ps.map (fun p => memberWrap memberTag (emitPart p)))).children =
      ps.map (fun p => memberWrap memberTag (emitPart p)) := rfl
  rw [parseMulti, hch, hfilter, filterMap_head_memberWrap]
  exact mapMExcept_map ps emitPart partFn val h

theorem lnPoint : localName (gmlTag "Point") = "Point" := by decide

theorem lnLineString : localName (gmlTag "LineString") = "LineString" := by decide

theorem lnPolygon : localName (gmlTag "Polygon") = "Polygon" := by decide

theorem lnMultiPoint : localName (gmlTag "MultiPoint") = "MultiPoint" := by decide

theorem lnMultiCurve : localName (gmlTag "MultiCurve") = "MultiCurve" := by decide

theorem lnMultiSurface : localName (gmlTag "MultiSurface") = "MultiSurface" := by decide

theorem lnMultiGeometry : localName (gmlTag "MultiGeometry") = "MultiGeometry" := by decide

/-- The body of `_parse_gml_element` restated over the accessors. -/
theorem parseGmlElement_eq (e : Xml) (swap : Bool) :
    parseGmlElement e swap =
      (if localName e.tag = "Point" then (parsePointCoord e swap).map .point
      else if localName e.tag = "LineString" then
        (parseLinestringCoords e swap).map .lineString
      else if localName e.tag = "Polygon" then (parsePolygonRings e swap).map .polygon
      else if localName e.tag = "MultiPoint" then
        (parseMulti e "pointMember" (fun c => parsePointCoord c swap)).map .multiPoint
      else if localName e.tag = "MultiCurve" then
        (parseMulti e "curveMember" (fun c => parseLinestringCoords c swap)).map .multiLineString
      else if localName e.tag = "MultiSurface" then
        (parseMulti e "surfaceMember" (fun c => parsePolygonRings c swap)).map .multiPolygon
      else if localName e.tag = "MultiGeometry" then
        (parseGeomMembers e.children swap).map .geometryCollection
      else .error ("Unsupported GML geometry type: " ++ localName e.tag)) := by
  cases e with
  | elem t a x cs =>
      rw [parseGmlElement]
      rfl

theorem parseGeomMembers_geomListToGml (gs : List Geom) (srs : String) (swap : Bool)
    (h : ∀ g ∈ gs, parseGmlElement (geomToGml g srs swap) swap = .ok g) :
    parseGeomMembers (geomListToGml gs srs swap) swap = .ok gs := by
  induction gs with
  | nil => rw [geomListToGml, parseGeomMembers]
  | cons gh gt ih =>
      have h1 := h gh (by simp)
      have hrest := ih (fun x hx => h x (by simp [hx]))
      rw [geomListToGml, parseGeomMembers, if_pos rfl]
      simp only [h1, hrest, bind, Except.bind]

theorem wfGeomList_mem : ∀ {gs : List Geom} {g : Geom},
    wfGeomList gs = true → g ∈ gs → wfGeom g = true := by
  intro gs
  induction gs with
  | nil =>
      intro g h hm
      cases hm
  | cons gh gt ih =>
      intro g h hm
      rw [wfGeomList, Bool.and_eq_true] at h
      rcases List.mem_cons.1 hm with hm2 | hm2
      · subst hm2
        exact h.1
      · exact ih h.2 hm2

theorem roundtripAux : ∀ (fuel : Nat) (g : Geom), sizeOf g ≤ fuel →
    ∀ (srs : String) (swap : Bool), wfGeom g = true →
    parseGmlElement (geomToGml g srs swap) swap = .ok g := by
  intro fuel
  induction fuel with
  | zero =>
      intro g hg srs swap hwf
      exfalso
      cases g <;> simp at hg
  | succ n ih =>
    intro g hg srs swap hwf
    cases g with
    | point c =>
        rw [geomToGml, parseGmlElement_eq,
          show (pointGml c srs swap).tag = gmlTag "Point" from rfl, lnPoint,
          if_pos rfl, parsePointCoord_pointGml]
        rfl
    | lineString cs =>
        rw [wfGeom] at hwf
        have hne : cs ≠ [] := by
          intro hnil
          subst hnil
          simp at hwf
        rw [geomToGml, parseGmlElement_eq,
          show (linestringGml cs srs swap).tag = gmlTag "LineString" from rfl, lnLineString,
          if_neg (by decide), if_pos rfl,
          parseLinestringCoords_linestringGml cs srs swap hne]
        rfl
    | polygon rings =>
        rw [wfGeom, wfRings, Bool.and_eq_true] at hwf
        have hext : rings.exterior ≠ [] := by
          intro hnil
          rw [wfRing, hnil] at hwf
          simp at hwf
        have hints : ∀ r ∈ rings.interiors, r ≠ [] := by
          intro r hr hnil
          have := List.all_eq_true.1 hwf.2 r hr
          rw [wfRing, hnil] at this
          simp at this
        rw [geomToGml, parseGmlElement_eq,
          show (polygonGml rings srs swap).tag = gmlTag "Polygon" from rfl, lnPolygon,
          if_neg (by decide), if_neg (by decide), if_pos rfl,
          parsePolygonRings_polygonGml rings srs swap hext hints]
        rfl
    | multiPoint ps =>
        rw [geomToGml, parseGmlElement_eq]
        rw [show (Xml.elem (gmlTag "MultiPoint") [("srsName", srs)] .none
          (ps.map (fun p => memberWrap "pointMember" (pointGml p srs swap)))).tag =
            gmlTag "MultiPoint" from rfl, lnMultiPoint,
          if_neg (by decide), if_neg (by decide), if_neg (by decide), if_pos rfl]
        have hm := parseMulti_memberWrap ps "pointMember" (gmlTag "MultiPoint")
          [("srsName", srs)] XText.none (fun p => pointGml p srs swap)
          (fun c => parsePointCoord c swap) (fun p => p)
          (fun p _ => parsePointCoord_pointGml p srs swap)
        simp only [List.map_id_fun, id] at hm
        rw [show (ps.map fun p => p) = ps from by simp] at hm
        rw [hm]
        rfl
    | multiLineString ls =>
        rw [wfGeom] at hwf
        have hne : ∀ l ∈ ls, l ≠ [] := by
          intro l hl hnil
          have := List.all_eq_true.1 hwf l hl
          subst hnil
          simp at this
        rw [geomToGml, parseGmlElement_eq]
        rw [show (Xml.elem (gmlTag "MultiCurve") [("srsName", srs)] .none
          (ls.map (fun l => memberWrap "curveMember" (linestringGml l srs swap)))).tag =
            gmlTag "MultiCurve" from rfl, lnMultiCurve,
          if_neg (by decide), if_neg (by decide), if_neg (by decide), if_neg (by decide),
          if_pos rfl]
        have hm := parseMulti_memberWrap ls "curveMember" (gmlTag "MultiCurve")
          [("srsName", srs)] XText.none (fun l => linestringGml l srs swap)
          (fun c => parseLinestringCoords c swap) (fun l => l)
          (fun l hl => parseLinestringCoords_linestringGml l srs swap (hne l hl))
        rw [show (ls.map fun l => l) = ls from by simp] at hm
        rw [hm]
        rfl
    | multiPolygon ps =>
        rw [wfGeom] at hwf
        have hwfp : ∀ p ∈ ps, wfRings p = true := fun p hp => List.all_eq_true.1 hwf p hp
        have hargs : ∀ p ∈ ps, parsePolygonRings (polygonGml p srs swap) swap = .ok p := by
          intro p hp
          have hw := hwfp p hp
          rw [wfRings, Bool.and_eq_true] at hw
          have hext : p.exterior ≠ [] := by
            intro hnil
            rw [wfRing, hnil] at hw
            simp at hw
          have hints : ∀ r ∈ p.interiors, r ≠ [] := by
            intro r hr hnil
            have := List.all_eq_true.1 hw.2 r hr
            rw [wfRing, hnil] at this
            simp at this
          exact parsePolygonRings_polygonGml p srs swap hext hints
        rw [geomToGml, parseGmlElement_eq]
        rw [show (Xml.elem (gmlTag "MultiSurface") [("srsName", srs)] .none
          (ps.map (fun p => memberWrap "surfaceMember" (polygonGml p srs swap)))).tag =
            gmlTag "MultiSurface" from rfl, lnMultiSurface,
          if_neg (by decide), if_neg (by decide), if_neg (by decide), if_neg (by decide),
          if_neg (by decide), if_pos rfl]
        have hm := parseMulti_memberWrap ps "surfaceMember" (gmlTag "MultiSurface")
          [("srsName", srs)] XText.none (fun p => polygonGml p srs swap)
          (fun c => parsePolygonRings c swap) (fun p => p) hargs
        rw [show (ps.map fun p => p) = ps from by simp] at hm
        rw [hm]
        rfl
    | geometryCollection gs =>
        rw [wfGeom] at hwf
        have hmem : ∀ g ∈ gs, parseGmlElement (geomToGml g srs swap) swap = .ok g := by
          intro g hgm
          have hsz : sizeOf g ≤ n := by
            have h1 : sizeOf g < sizeOf gs := List.sizeOf_lt_of_mem hgm
            have h2 : sizeOf (Geom.geometryCollection gs) = 1 + sizeOf gs := by simp
            omega
          exact ih g hsz srs swap (wfGeomList_mem hwf hgm)
        rw [geomToGml, parseGmlElement_eq]
        rw [show (Xml.elem (gmlTag "MultiGeometry") [("srsName", srs)] .none
          (geomListToGml gs srs swap)).tag = gmlTag "MultiGeometry" from rfl, lnMultiGeometry,
          if_neg (by decide), if_neg (by decide), if_neg (by decide), if_neg (by decide),
          if_neg (by decide), if_neg (by decide), if_pos rfl]
        rw [show (Xml.elem (gmlTag "MultiGeometry") [("srsName", srs)] .none
          (geomListToGml gs srs swap)).children = geomListToGml gs srs swap from rfl]
        rw [parseGeomMembers_geomListToGml gs srs swap hmem]
        rfl

/-- Round trip of `_parse_gml_element` against `_geom_to_gml` for any srsName
string and any swap flag, on well-formed geometries. -/
theorem parseGml_geomToGml (g : Geom) (srs : String) (swap : Bool)
    (h : wfGeom g = true) :
    parseGmlElement (geomToGml g srs swap) swap = .ok g :=
  roundtripAux (sizeOf g) g le_rfl srs swap h

/-! ## Schema inference lemmas (claim C7) -/

theorem lookup_addObs (fields : List (String × List String)) (k0 t k : String) :
    (addObs fields k0 t).lookup k =
      if k = k0 then some (addLabel ((fields.lookup k0).getD []) t)
      else fields.lookup k := by
  induction fields with
  | nil =>
      by_cases h : k = k0
      · subst h
        simp [addObs, List.lookup, addLabel]
      · have hb : (k == k0) = false := beq_eq_false_iff_ne.mpr h
        simp [addObs, List.lookup, addLabel, hb, h]
  | cons kv rest ih =>
      rcases kv with ⟨k1, ls⟩
      by_cases h1 : k1 = k0
      · subst h1
        by_cases h : k = k1
        · subst h
          simp [addObs, List.lookup]
        · have hb : (k == k1) = false := beq_eq_false_iff_ne.mpr h
          simp [addObs, List.lookup, hb, h]
      · have h1' : ¬k0 = k1 := fun he => h1 he.symm
        by_cases h : k = k1
        · subst h
          simp [addObs, h1, h1', List.lookup, beq_iff_eq]
        · have hb : (k == k1) = false := beq_eq_false_iff_ne.mpr h
          have hb1 : (k0 == k1) = false := beq_eq_false_iff_ne.mpr h1'
          simp [addObs, h1, h1', h, hb, hb1, List.lookup, ih]

theorem foldl_addObs_lookup (pairs : List (String × PValue)) :
    ∀ (fields : List (String × List String)) (k : String),
    ((pairs.foldl (fun f kv => addObs f kv.1 (valueType kv.2)) fields).lookup k) =
      (if fields.lookup k = none ∧ pairs.filter (fun kv => kv.1 == k) = [] then none
       else some (((pairs.filter (fun kv => kv.1 == k)).map
         (fun kv => valueType kv.2)).foldl addLabel ((fields.lookup k).getD []))) := by
  induction pairs with
  | nil =>
      intro fields k
      match h : fields.lookup k with
      | none => simp [h]
      | some ls => simp [h]
  | cons kv rest ih =>
      intro fields k
      rcases kv with ⟨k1, v1⟩
      simp only [List.foldl_cons]
      rw [ih]
      by_cases hk : k = k1
      · subst hk
        rw [lookup_addObs]
        simp only [if_pos rfl]
        rw [List.filter_cons_of_pos (by simp)]
        simp
      · rw [lookup_addObs, if_neg hk,
          List.filter_cons_of_neg (by simp [beq_iff_eq]; exact fun he => hk he.symm)]

theorem collectFields_eq_flat (sample : List Props) :
    collectFields sample =
      (sample.flatten).foldl (fun f kv => addObs f kv.1 (valueType kv.2)) [] := by
  suffices h : ∀ (init : List (String × List String)),
      sample.foldl (fun fields props =>
        props.foldl (fun fields kv => addObs fields kv.1 (valueType kv.2)) fields) init =
      (sample.flatten).foldl (fun f kv => addObs f kv.1 (valueType kv.2)) init by
    exact h []
  induction sample with
  | nil => intro init; rfl
  | cons props rest ih =>
      intro init
      simp only [List.foldl_cons, List.flatten_cons, List.foldl_append]
      exact ih _

theorem mem_addLabel (x t : String) (base : List String) :
    x ∈ addLabel base t ↔ x ∈ base ∨ x = t := by
  by_cases h : t ∈ base
  · simp only [addLabel, if_pos h]
    constructor
    · exact fun hx => Or.inl hx
    · rintro (hx | hx)
      · exact hx
      · exact hx ▸ h
  · simp [addLabel, if_neg h]

theorem mem_foldl_addLabel (ls : List String) :
    ∀ (base : List String) (x : String),
    x ∈ ls.foldl addLabel base ↔ x ∈ base ∨ x ∈ ls := by
  induction ls with
  | nil =>
      intro base x
      simp
  | cons t rest ih =>
      intro base x
      simp only [List.foldl_cons]
      rw [ih, mem_addLabel]
      simp only [List.mem_cons]
      tauto

theorem all_congr_of_mem_iff {l1 l2 : List String}
    (h : ∀ x, x ∈ l1 ↔ x ∈ l2) (p : String → Bool) : l1.all p = l2.all p := by
  cases h1 : l1.all p <;> cases h2 : l2.all p
  · rfl
  · have hx : l1.all p = true :=
      List.all_eq_true.2 (fun x hx => (List.all_eq_true.1 h2) x ((h x).1 hx))
    rw [h1] at hx
    exact hx
  · have hx : l2.all p = true :=
      List.all_eq_true.2 (fun x hx => (List.all_eq_true.1 h1) x ((h x).2 hx))
    rw [h2] at hx
    exact hx.symm
  · rfl

theorem classifyLabels_congr {l1 l2 : List String}
    (h : ∀ x, x ∈ l1 ↔ x ∈ l2) : classifyLabels l1 = classifyLabels l2 := by
  unfold classifyLabels
  rw [all_congr_of_mem_iff h, all_congr_of_mem_iff h]

theorem lookup_map_classify (l : List (String × List String)) (k : String) :
    ((l.map (fun kt => (kt.1, classifyLabels kt.2))).lookup k) =
      (l.lookup k).map classifyLabels := by
  induction l with
  | nil => rfl
  | cons kv rest ih =>
      rcases kv with ⟨k1, ls⟩
      by_cases h : k = k1
      · subst h
        simp [List.lookup, ih]
      · have hb : (k == k1) = false := beq_eq_false_iff_ne.mpr h
        simp [List.lookup, hb, ih]

/-- The accumulated observation set of a field classifies the same as
the raw observation list: `infer_schema` maps each observed field to
the classification of the value-type labels of all its observed values
(nulls and booleans both observe as `"String"`), and gives no entry for
a field never observed. -/
theorem inferSchema_lookup (sample : List Props) (k : String) :
    (inferSchema sample).lookup k =
      if obsValues sample k = [] then none
      else some (classifyLabels ((obsValues sample k).map valueType)) := by
  by_cases hs : sample = []
  · subst hs
    simp [inferSchema, obsValues, List.lookup]
  · rw [inferSchema, if_neg hs, lookup_map_classify, collectFields_eq_flat,
      foldl_addObs_lookup]
    have hobs : obsValues sample k =
        ((sample.flatten).filter (fun kv => kv.1 == k)).map (·.2) := rfl
    by_cases he : (sample.flatten).filter (fun kv => kv.1 == k) = []
    · rw [if_pos ⟨rfl, he⟩, if_pos (by rw [hobs, he]; rfl)]
      rfl
    · have hmapne : obsValues sample k ≠ [] := by
        rw [hobs]
        intro hm
        cases hfe : (sample.flatten).filter (fun kv => kv.1 == k) with
        | nil => exact he hfe
        | cons a l =>
            rw [hfe] at hm
            simp at hm
      rw [if_neg (fun hand => he hand.2), if_neg hmapne]
      show some _ = some _
      congr 1
      apply classifyLabels_congr
      intro x
      rw [mem_foldl_addLabel]
      simp only [List.lookup_nil, Option.getD_none, List.not_mem_nil, false_or, hobs,
        List.map_map]
      rfl

/-- A field observed as `[1, null]` classifies as `"String"` (the code
maps `None` to a `"String"` observation), not `"Integer"`. -/
theorem inferSchema_null_counterexample :
    inferSchema [[("a", PValue.int 1)], [("a", PValue.null)]] = [("a", "String")] ∧
    [("a", "String")] ≠ [("a", "Integer")] := by
  constructor
  · rfl
  · decide

/-! ## Query lemmas (claims C5, C4) -/

theorem sqlOr_some (x y : Bool) : sqlOr (some x) (some y) = some (x || y) := by
  cases x <;> cases y <;> rfl

theorem sqlIsTrue_some (z : Bool) : sqlIsTrue (some z) = z := by
  cases z <;> rfl

theorem bboxWhere_some (f : FeatureRow) (q : Rect4) (a b c d : Rat)
    (h1 : f.bboxMinx = some a) (h2 : f.bboxMiny = some b)
    (h3 : f.bboxMaxx = some c) (h4 : f.bboxMaxy = some d) :
    bboxWhere f q = !(decide (c < q.minx) || decide (a > q.maxx) ||
      decide (d < q.miny) || decide (b > q.maxy)) := by
  simp only [bboxWhere, h1, h2, h3, h4, sqlLt, sqlGt, sqlOr_some, sqlNot, sqlIsTrue_some]

theorem mem_insertById (f a : FeatureRow) (l : List FeatureRow) :
    a ∈ insertById f l ↔ a = f ∨ a ∈ l := by
  induction l with
  | nil => simp [insertById]
  | cons g rest ih =>
      by_cases h : f.id ≤ g.id
      · simp [insertById, h]
      · simp [insertById, h, ih]
        tauto

theorem mem_sortById (a : FeatureRow) (l : List FeatureRow) :
    a ∈ sortById l ↔ a ∈ l := by
  induction l with
  | nil => simp [sortById]
  | cons g rest ih =>
      simp only [sortById, List.foldr_cons] at ih ⊢
      rw [mem_insertById, ih]
      simp [List.mem_cons]

theorem sqlPage_subset (l : List FeatureRow) (lim off : Int) :
    ∀ r ∈ sqlPage l lim off, r ∈ l := by
  intro r hr
  simp only [sqlPage] at hr
  by_cases h : lim < 0
  · rw [if_pos h] at hr
    exact List.drop_subset _ _ hr
  · rw [if_neg h] at hr
    exact List.drop_subset _ _ (List.take_subset _ _ hr)

/-- The bbox predicate of `_query_features` with its SQL parameter
binding order: a feature with non-null bbox columns is matched (counted
in `numberMatched` and eligible for the page) iff it is not excluded by
`bbox_maxx < q.minx ∨ bbox_minx > q.maxx ∨ bbox_maxy < q.miny ∨
bbox_miny > q.maxy`; `numberMatched` is the size of the matching set
before LIMIT/OFFSET, and every returned row is a matching row. -/
theorem bbox_filter_claim (db : DB) (layer : LayerRow) (q : Rect4)
    (count : Option Int) (startindex maxF : Int) (f : FeatureRow)
    (hmem : f ∈ db.features) (hlay : f.layerId = layer.id) (a b c d : Rat)
    (h1 : f.bboxMinx = some a) (h2 : f.bboxMiny = some b)
    (h3 : f.bboxMaxx = some c) (h4 : f.bboxMaxy = some d) :
    (f ∈ matchingRows db.features layer.id (some q) ↔
      ¬(c < q.minx ∨ a > q.maxx ∨ d < q.miny ∨ b > q.maxy)) ∧
    (queryFeatures db layer (some q) count startindex maxF).2 =
      (matchingRows db.features layer.id (some q)).length ∧
    (∀ r ∈ (queryFeatures db layer (some q) count startindex maxF).1,
      r ∈ matchingRows db.features layer.id (some q)) := by
  refine ⟨?_, rfl, ?_⟩
  · rw [matchingRows, List.mem_filter]
    simp only [hmem, true_and]
    rw [show (f.layerId == layer.id) = true from beq_iff_eq.mpr hlay]
    simp only [Bool.true_and]
    rw [bboxWhere_some f q a b c d h1 h2 h3 h4]
    simp [not_or]
    tauto
  · intro r hr
    rw [queryFeatures] at hr
    have := sqlPage_subset _ _ _ r hr
    exact (mem_sortById r _).1 this

theorem bbox_filter_claim_witness :
    (roadsFeature ∈ matchingRows demoDb.features roadsLayer.id
        (some ⟨0, 0, 2, 2⟩) ↔
      ¬((1 : Rat) < 0 ∨ (0 : Rat) > 2 ∨ (1 : Rat) < 0 ∨ (0 : Rat) > 2)) ∧
    (queryFeatures demoDb roadsLayer (some ⟨0, 0, 2, 2⟩) none 0 10000).2 =
      (matchingRows demoDb.features roadsLayer.id (some ⟨0, 0, 2, 2⟩)).length ∧
    (∀ r ∈ (queryFeatures demoDb roadsLayer (some ⟨0, 0, 2, 2⟩) none 0 10000).1,
      r ∈ matchingRows demoDb.features roadsLayer.id (some ⟨0, 0, 2, 2⟩)) :=
  bbox_filter_claim demoDb roadsLayer ⟨0, 0, 2, 2⟩ none 0 10000 roadsFeature
    (by simp [demoDb]) rfl 0 0 1 1 rfl rfl rfl rfl

/-- The KVP front-end resolves `COUNT=0` through Python `or`, which
treats 0 as absent: with one stored feature and `COUNT=0` the response
returns 1 feature, violating `numberReturned ≤ min(count, max)` = 0. -/
theorem count_zero_code_bug :
    numberReturnedOf (wfsEndpointGet kvpCount0 demoDb 10000) = some 1 ∧
    ¬((1 : Int) ≤ min 0 10000) := by
  constructor
  · rfl
  · decide

/-! ## DescribeFeatureType status (claim C9) -/

/-- The GML parser has no CRS84 handling: a CRS84 srsName has no
`EPSG::<digits>` match, so `_parse_srs` defaults to SRID 4326 WITH the
axis swap — the parsed point is `(2, 1)`, not the unswapped `(1, 2)`. -/
theorem crs84_counterexample :
    gml32ToGeom crs84PointElem = .ok (.point (2, 1), 4326) ∧
    Geom.point (2, 1) ≠ Geom.point (1, 2) := by
  constructor
  · have hsrs : parseSrs crs84PointElem = (4326, true) := by decide
    have htag : crs84PointElem.tag = gmlTag "Point" := rfl
    simp only [gml32ToGeom, hsrs]
    rw [parseGmlElement_eq, htag, lnPoint, if_pos rfl]
    simp [parsePointCoord, crs84PointElem, findText, Xml.children, Xml.tag, Xml.text,
      List.find?, parsePos, bind, Except.bind, Except.map]
  · intro h
    injection h with h'
    have := congrArg Prod.fst h'
    norm_num at this

/-- Amended: srsName strings without an `EPSG::<digits>` match (CRS84
URNs included) parse as SRID 4326 with swap; the CRS84 no-swap rule
lives only in the KVP BBOX front-end. -/
theorem crs84_amended :
    (∀ e : Xml, epsgSearch (((attrGet e "srsName").getD "").toList) = none →
      parseSrs e = (4326, true)) ∧
    (∀ b : BboxParam, b.crs = some "urn:ogc:def:crs:OGC:1.3:CRS84" →
      parseBboxKvp b = ⟨b.v0, b.v1, b.v2, b.v3⟩) := by
  constructor
  · intro e h
    have h' : epsgSearch (((attrGet e "srsName").getD "").data) = none := h
    simp [parseSrs, h']
  · intro b h
    have h1 : containsSub (stripSpaces "urn:ogc:def:crs:OGC:1.3:CRS84") "4326" = false := by
      decide
    simp [parseBboxKvp, h, h1]

theorem crs84_amended_witness :
    parseSrs crs84PointElem = (4326, true) ∧
    parseBboxKvp ⟨1, 2, 3, 4, some "urn:ogc:def:crs:OGC:1.3:CRS84"⟩ =
      ⟨(1 : Rat), 2, 3, 4⟩ :=
  ⟨crs84_amended.1 crs84PointElem (by decide),
   crs84_amended.2 ⟨1, 2, 3, 4, some "urn:ogc:def:crs:OGC:1.3:CRS84"⟩ rfl⟩

/-! ## Top-level GML round trip (claim C2) -/

theorem attrGet_geomToGml (g : Geom) (srs : String) (swap : Bool) :
    attrGet (geomToGml g srs swap) "srsName" = some srs := by
  cases g <;>
    simp [geomToGml, pointGml, linestringGml, polygonGml, attrGet, Xml.attrs, List.find?]

/-- Parsing the GML 3.2 serialization emitted with
`srsName="urn:ogc:def:crs:EPSG::<srid>"` recovers the geometry
structurally and the SRID, for every well-formed geometry of the seven
classes and every SRID; the axis swap applied iff the SRID is 4326 is
undone by the identical swap test on the parse side. -/
theorem gml_roundtrip_wellformed (w : Wkb) (srid : Nat)
    (h : wfGeom (wkbToGeom w) = true) :
    gml32ToGeom (wkbToGml32 w srid) = .ok (wkbToGeom w, srid) := by
  have hattr : attrGet (wkbToGml32 w srid) "srsName" = some (srsUrn srid) :=
    attrGet_geomToGml (wkbToGeom w) (srsUrn srid) (srid == 4326)
  have hsearch : epsgSearch ((srsUrn srid).data) = some srid := epsgSearch_srsUrn srid
  have hsrs : parseSrs (wkbToGml32 w srid) = (srid, srid == 4326) := by
    simp [parseSrs, hattr, hsearch]
  simp only [gml32ToGeom, hsrs]
  rw [show wkbToGml32 w srid =
    geomToGml (wkbToGeom w) (srsUrn srid) (srid == 4326) from rfl]
  rw [parseGml_geomToGml (wkbToGeom w) (srsUrn srid) (srid == 4326) h]
  rfl

/-- The round trip fails on an empty LineString: the emitted `posList`
has empty text, which re-parses as a missing element. -/
theorem gml_roundtrip_counterexample :
    gml32ToGeom (wkbToGml32 (geomToWkb (Geom.lineString [])) 4326) =
      .error "Missing gml posList element" ∧
    gml32ToGeom (wkbToGml32 (geomToWkb (Geom.lineString [])) 4326) ≠
      .ok (Geom.lineString [], 4326) := by
  have he : wkbToGml32 (geomToWkb (Geom.lineString [])) 4326 =
      linestringGml [] (srsUrn 4326) true := by
    simp [wkbToGml32, wkbToGeom, geomToWkb, geomToGml]
  have h1 : gml32ToGeom (wkbToGml32 (geomToWkb (Geom.lineString [])) 4326) =
      .error "Missing gml posList element" := by
    have hattr : attrGet (linestringGml [] (srsUrn 4326) true) "srsName" =
        some (srsUrn 4326) := rfl
    have hsearch : epsgSearch ((srsUrn 4326).data) = some 4326 :=
      epsgSearch_srsUrn 4326
    have hsrs : parseSrs (linestringGml [] (srsUrn 4326) true) = (4326, true) := by
      simp [parseSrs, hattr, hsearch]
    rw [he]
    simp only [gml32ToGeom, hsrs]
    rw [parseGmlElement_eq,
      show (linestringGml [] (srsUrn 4326) true).tag = gmlTag "LineString" from rfl,
      lnLineString, if_neg (by decide), if_pos rfl]
    simp [parseLinestringCoords, linestringGml, findText, Xml.children, Xml.tag,
      Xml.text, List.find?, coordsText, bind, Except.bind, Except.map]
  refine ⟨h1, ?_⟩
  rw [h1]
  exact fun hcon => Except.noConfusion hcon

theorem gml_roundtrip_wellformed_witness :
    wfGeom allKindsGeom = true ∧
    gml32ToGeom (wkbToGml32 (geomToWkb allKindsGeom) 4326) =
      .ok (allKindsGeom, 4326) := by
  have hwf : wfGeom allKindsGeom = true := by
    simp [allKindsGeom, wfGeom, wfGeomList, wfRings, wfRing, lastCoord]
  exact ⟨hwf, gml_roundtrip_wellformed (geomToWkb allKindsGeom) 4326 hwf⟩

/-! ## Transaction engine lemmas (claims C1, C10) -/

theorem lnTransaction : localName (wfsTag "Transaction") = "Transaction" := by decide

theorem lnInsert : localName (wfsTag "Insert") = "Insert" := by decide

theorem foldME_cons_error {f : σ → α → Except TxErr σ} {s : σ} {a : α} {rest : List α}
    {e : TxErr} (h : f s a = .error e) : foldME f s (a :: rest) = .error e := by
  simp [foldME, h]

/-- A transaction that answers with an exception report leaves the
state exactly as it was (`with db:` rolled back); a transaction that
answers with a summary committed the state produced by running every
operation. -/
theorem tx_atomicity :
    (∀ (reproj : Nat → Geom → Geom) (root : Xml) (db : DB) (code msg : String),
      (executeTransaction reproj root db).1 = .exceptionReport code msg →
      (executeTransaction reproj root db).2 = db) ∧
    (∀ (reproj : Nat → Geom → Geom) (root : Xml) (db : DB)
      (ins : List (String × String)) (u d : Nat),
      (executeTransaction reproj root db).1 = .success ins u d →
      ∃ acc : TxAcc, runTxBody reproj root.children db = .ok acc ∧
        acc.inserted = ins ∧ acc.updated = u ∧ acc.deleted = d ∧
        (executeTransaction reproj root db).2 = acc.db) ∧
    (∀ (reproj : Nat → Geom → Geom) (db : DB) (ra ia : List (String × String))
      (rt it : XText) (fElem : Xml) (fs rest : List Xml),
      lookupLayer db (localName fElem.tag) = none →
      executeTransaction reproj
        (Xml.elem (wfsTag "Transaction") ra rt
          (Xml.elem (wfsTag "Insert") ia it (fElem :: fs) :: rest)) db =
        (.exceptionReport "InvalidParameterValue"
          ("Unknown feature type: " ++ localName fElem.tag), db)) := by
  refine ⟨?_, ?_, ?_⟩
  · intro reproj root db code msg h
    rw [executeTransaction] at h ⊢
    by_cases htag : localName root.tag = "Transaction"
    · rw [if_neg (fun hne => hne htag)] at h ⊢
      cases hrun : runTxBody reproj root.children db with
      | error e => rfl
      | ok acc =>
          rw [hrun] at h
          simp at h
    · rw [if_pos htag]
  · intro reproj root db ins u d h
    rw [executeTransaction] at h ⊢
    by_cases htag : localName root.tag = "Transaction"
    · rw [if_neg (fun hne => hne htag)] at h ⊢
      cases hrun : runTxBody reproj root.children db with
      | error e =>
          rw [hrun] at h
          cases e <;> simp [toExceptionReport] at h
      | ok acc =>
          rw [hrun] at h
          have h' : TxResponse.success acc.inserted acc.updated acc.deleted =
              .success ins u d := h
          rw [TxResponse.success.injEq] at h'
          exact ⟨acc, rfl, h'.1, h'.2.1, h'.2.2, rfl⟩
    · rw [if_pos htag] at h
      simp at h
  · intro reproj db ra ia rt it fElem fs rest h
    have hstep : processInsertFeature reproj ([], [], db) fElem =
        .error (.wfs "InvalidParameterValue"
          ("Unknown feature type: " ++ localName fElem.tag)) := by
      cases fElem with
      | elem t a x cs =>
          simp [processInsertFeature, getLayer, h, bind, Except.bind]
    have hins : handleInsert reproj (Xml.elem (wfsTag "Insert") ia it (fElem :: fs)) db =
        .error (.wfs "InvalidParameterValue"
          ("Unknown feature type: " ++ localName fElem.tag)) := by
      rw [handleInsert,
        show (Xml.elem (wfsTag "Insert") ia it (fElem :: fs)).children = fElem :: fs
          from rfl]
      exact foldME_cons_error hstep
    have htx : processTxChild reproj ⟨[], 0, 0, [], db⟩
        (Xml.elem (wfsTag "Insert") ia it (fElem :: fs)) =
        .error (.wfs "InvalidParameterValue"
          ("Unknown feature type: " ++ localName fElem.tag)) := by
      rw [processTxChild,
        show (Xml.elem (wfsTag "Insert") ia it (fElem :: fs)).tag = wfsTag "Insert"
          from rfl, lnInsert, if_pos rfl]
      simp [hins, bind, Except.bind]
    have hrun : runTxBody reproj
        (Xml.elem (wfsTag "Insert") ia it (fElem :: fs) :: rest) db =
        .error (.wfs "InvalidParameterValue"
          ("Unknown feature type: " ++ localName fElem.tag)) := by
      rw [runTxBody]
      simp [foldME_cons_error htx, bind, Except.bind]
    rw [executeTransaction,
      show (Xml.elem (wfsTag "Transaction") ra rt
        (Xml.elem (wfsTag "Insert") ia it (fElem :: fs) :: rest)).tag =
          wfsTag "Transaction" from rfl,
      if_neg (by rw [lnTransaction]; exact fun hne => hne rfl),
      show (Xml.elem (wfsTag "Transaction") ra rt
        (Xml.elem (wfsTag "Insert") ia it (fElem :: fs) :: rest)).children =
          Xml.elem (wfsTag "Insert") ia it (fElem :: fs) :: rest from rfl,
      hrun]
    rfl

theorem tx_atomicity_witness :
    (executeTransaction demoReproj s4Tx demoDb).1 =
      .exceptionReport "InvalidParameterValue" "Unknown feature type: unknown" ∧
    (executeTransaction demoReproj s4Tx demoDb).2 = demoDb := by
  have h1 : (executeTransaction demoReproj s4Tx demoDb).1 =
      .exceptionReport "InvalidParameterValue" "Unknown feature type: unknown" := by
    decide
  exact ⟨h1, tx_atomicity.1 demoReproj s4Tx demoDb _ _ h1⟩

theorem propOnly_foldFC (reproj : Nat → Geom → Geom) (cs : List Xml)
    (h : ∀ c ∈ cs, localName c.tag ≠ "geometry" ∧ localName c.tag ≠ "the_geom" ∧
      isGmlGeometry c = false) :
    ∀ g b props, ∃ props',
      foldME (processFeatureChild reproj) (g, b, props) cs = .ok (g, b, props') := by
  induction cs with
  | nil =>
      intro g b props
      exact ⟨props, rfl⟩
  | cons c rest ih =>
      intro g b props
      obtain ⟨hg, ht, hgml⟩ := h c (by simp)
      have hstep : processFeatureChild reproj (g, b, props) c =
          .ok (g, b, dictSet props (localName c.tag) (pyTextOrEmpty c.text)) := by
        rw [processFeatureChild, if_neg (by rintro (hc | hc) <;> [exact hg hc; exact ht hc]),
          if_neg (by rw [hgml]; exact fun hb => Bool.noConfusion hb)]
      obtain ⟨props', hp⟩ := ih (fun x hx => h x (by simp [hx])) g b
        (dictSet props (localName c.tag) (pyTextOrEmpty c.text))
      exact ⟨props', by simp only [foldME, hstep, hp]⟩

/-- Inserting a feature whose `(layer_id, fid)` already exists aborts
the whole transaction with `NoApplicableCode` (plain INSERT against
`UNIQUE(layer_id, fid)` raises `IntegrityError`, which is not a
`_WfsError`) and the state is rolled back; the ingest pipeline's
`INSERT OR IGNORE` on the same duplicate silently skips the row and
reports the chunk as imported. -/
theorem duplicate_insert_claim :
    (∀ (reproj : Nat → Geom → Geom) (db : DB) (ra ia fAttrs : List (String × String))
      (rt it ft : XText) (rest fs fchildren : List Xml) (fTag v : String) (L : LayerRow),
      lookupLayer db (localName fTag) = some L →
      pyOr2 (attrGet (Xml.elem fTag fAttrs ft fchildren) (gmlTag "id"))
        (attrGet (Xml.elem fTag fAttrs ft fchildren) "gml:id") = some v →
      v ≠ "" →
      (∀ c ∈ fchildren, localName c.tag ≠ "geometry" ∧ localName c.tag ≠ "the_geom" ∧
        isGmlGeometry c = false) →
      (db.features.any (fun r => r.layerId == L.id &&
        r.fid == stripFidPrefix (localName fTag) v)) = true →
      executeTransaction reproj
        (Xml.elem (wfsTag "Transaction") ra rt
          (Xml.elem (wfsTag "Insert") ia it
            (Xml.elem fTag fAttrs ft fchildren :: fs) :: rest)) db =
        (.exceptionReport "NoApplicableCode"
          ("Transaction failed: " ++
            "UNIQUE constraint failed: features.layer_id, features.fid"), db)) ∧
    (∀ (db : DB) (r : Rec),
      (db.layers.any (fun L => L.id == r.layerId)) = true →
      (db.features.any (fun f => f.layerId == r.layerId && f.fid == r.fid)) = true →
      batchInsert db [r] = (1, 0, [], db)) := by
  constructor
  · intro reproj db ra ia fAttrs rt it ft rest fs fchildren fTag v L
      hlayer hgid hv hprops hdup
    have hstep : processInsertFeature reproj ([], [], db)
        (Xml.elem fTag fAttrs ft fchildren) =
        .error (.exc "UNIQUE constraint failed: features.layer_id, features.fid") := by
      rw [processInsertFeature]
      rw [show localName (Xml.elem fTag fAttrs ft fchildren).tag = localName fTag
        from rfl]
      rw [show getLayer db (localName fTag) = .ok L by rw [getLayer, hlayer]]
      simp only [bind, Except.bind]
      rw [hgid]
      rw [show pyStrFalsy (some v) = false by simp [pyStrFalsy, hv]]
      simp only [Bool.false_eq_true, if_false, Option.getD_some]
      obtain ⟨props', hp⟩ := propOnly_foldFC reproj fchildren hprops none none []
      rw [show (Xml.elem fTag fAttrs ft fchildren).children = fchildren from rfl]
      simp only [hp]
      simp only [show dbInsertFeature db L.id (stripFidPrefix (localName fTag) v) none
          (props'.map (fun kv => (kv.1, PValue.str kv.2))) none =
        .error (.exc "UNIQUE constraint failed: features.layer_id, features.fid") from by
          rw [dbInsertFeature, if_pos hdup]]
    have hins : handleInsert reproj
        (Xml.elem (wfsTag "Insert") ia it (Xml.elem fTag fAttrs ft fchildren :: fs)) db =
        .error (.exc "UNIQUE constraint failed: features.layer_id, features.fid") := by
      rw [handleInsert,
        show (Xml.elem (wfsTag "Insert") ia it
          (Xml.elem fTag fAttrs ft fchildren :: fs)).children =
            Xml.elem fTag fAttrs ft fchildren :: fs from rfl]
      exact foldME_cons_error hstep
    have htx : processTxChild reproj ⟨[], 0, 0, [], db⟩
        (Xml.elem (wfsTag "Insert") ia it (Xml.elem fTag fAttrs ft fchildren :: fs)) =
        .error (.exc "UNIQUE constraint failed: features.layer_id, features.fid") := by
      rw [processTxChild,
        show (Xml.elem (wfsTag "Insert") ia it
          (Xml.elem fTag fAttrs ft fchildren :: fs)).tag = wfsTag "Insert" from rfl,
        lnInsert, if_pos rfl]
      simp [hins, bind, Except.bind]
    have hrun : runTxBody reproj
        (Xml.elem (wfsTag "Insert") ia it (Xml.elem fTag fAttrs ft fchildren :: fs)
          :: rest) db =
        .error (.exc "UNIQUE constraint failed: features.layer_id, features.fid") := by
      rw [runTxBody]
      simp [foldME_cons_error htx, bind, Except.bind]
    rw [executeTransaction,
      show (Xml.elem (wfsTag "Transaction") ra rt
        (Xml.elem (wfsTag "Insert") ia it (Xml.elem fTag fAttrs ft fchildren :: fs)
          :: rest)).tag = wfsTag "Transaction" from rfl,
      if_neg (by rw [lnTransaction]; exact fun hne => hne rfl),
      show (Xml.elem (wfsTag "Transaction") ra rt
        (Xml.elem (wfsTag "Insert") ia it (Xml.elem fTag fAttrs ft fchildren :: fs)
          :: rest)).children =
        Xml.elem (wfsTag "Insert") ia it (Xml.elem fTag fAttrs ft fchildren :: fs)
          :: rest from rfl,
      hrun]
    rfl
  · intro db r h1 h2
    rw [batchInsert, batchInsertGo]
    rw [show execManyOrIgnore db (List.take 500 [r]) = .ok db by
      rw [show List.take 500 [r] = [r] from rfl, execManyOrIgnore, if_neg (by rw [h1]; simp),
        if_pos h2, execManyOrIgnore]]
    rw [show List.drop 500 [r] = [] from rfl]
    simp [batchInsertGo]

theorem duplicate_insert_claim_witness :
    executeTransaction demoReproj dupTx demoDb =
      (.exceptionReport "NoApplicableCode"
        ("Transaction failed: " ++
          "UNIQUE constraint failed: features.layer_id, features.fid"), demoDb) ∧
    batchInsert demoDb
      [⟨1, "r1", geomToWkb (.point (0, 0)), [], some 0, some 0, some 0, some 0⟩] =
      (1, 0, [], demoDb) := by
  constructor
  · exact duplicate_insert_claim.1 demoReproj demoDb [] [] [("gml:id", "roads.r1")]
      .none .none (.str "2") [] []
      [Xml.elem "lanes" [] (.str "2") []] "roads" "roads.r1" roadsLayer
      (by decide) (by decide) (by decide)
      (by intro c hc; simp at hc; subst hc; refine ⟨by decide, by decide, by decide⟩)
      (by decide)
  · exact duplicate_insert_claim.2 demoDb
      ⟨1, "r1", geomToWkb (.point (0, 0)), [], some 0, some 0, some 0, some 0⟩
      (by decide) (by decide)

/-! ## C8: ImportResult aggregation -/

theorem batchInsertGo_eq_spec : ∀ (n : Nat) (records : List Rec) (db : DB) (k : Nat),
    records.length ≤ n →
    batchInsertGo db records k = batchSpecGo db (chunks500 records) k := by
  intro n
  induction n with
  | zero =>
      intro records db k h
      cases records with
      | nil => simp [batchInsertGo, chunks500, batchSpecGo]
      | cons r rs => simp at h
  | succ n ih =>
      intro records db k h
      cases records with
      | nil => simp [batchInsertGo, chunks500, batchSpecGo]
      | cons r rs =>
          rw [batchInsertGo, chunks500]
          have hlen : ((r :: rs).drop 500).length ≤ n := by
            simp only [List.length_drop, List.length_cons] at h ⊢
            omega
          cases hex : execManyOrIgnore db ((r :: rs).take 500) with
          | ok db2 =>
              simp only [hex, batchSpecGo]
              rw [ih _ db2 (k + 1) hlen]
          | error msg =>
              simp only [hex, batchSpecGo]
              rw [ih _ db (k + 1) hlen]

theorem batchSpecGo_partition : ∀ (chunks : List (List Rec)) (db : DB) (k : Nat),
    (batchSpecGo db chunks k).1 + (batchSpecGo db chunks k).2.1 =
      (chunks.map List.length).sum := by
  intro chunks
  induction chunks with
  | nil => intro db k; simp [batchSpecGo]
  | cons c rest ih =>
      intro db k
      simp only [batchSpecGo]
      cases hex : execManyOrIgnore db c with
      | ok db2 =>
          have := ih db2 (k + 1)
          simp only [List.map_cons, List.sum_cons]
          omega
      | error msg =>
          have := ih db (k + 1)
          simp only [List.map_cons, List.sum_cons]
          omega

theorem chunks500_sum : ∀ (n : Nat) (records : List Rec), records.length ≤ n →
    ((chunks500 records).map List.length).sum = records.length := by
  intro n
  induction n with
  | zero =>
      intro records h
      cases records with
      | nil => simp [chunks500]
      | cons r rs => simp at h
  | succ n ih =>
      intro records h
      cases records with
      | nil => simp [chunks500]
      | cons r rs =>
          rw [chunks500]
          have hlen : ((r :: rs).drop 500).length ≤ n := by
            simp only [List.length_drop, List.length_cons] at h ⊢
            omega
          simp only [List.map_cons, List.sum_cons, ih _ hlen]
          simp [List.length_take, List.length_drop]
          omega

theorem importLoopGo_char :
    ∀ (feats : List (Except String Rec)) (tagFn : Nat → String → String) (i : Nat),
    (importLoopGo tagFn i feats).1 = feats.filterMap Except.toOption ∧
    (importLoopGo tagFn i feats).2 = (List.enumFrom i feats).filterMap
      (fun p => match p.2 with
        | Except.error m => some (tagFn p.1 m)
        | Except.ok _ => none) := by
  intro feats
  induction feats with
  | nil => intro tagFn i; simp [importLoopGo, List.enumFrom]
  | cons x rest ih =>
      intro tagFn i
      cases x with
      | ok r =>
          have h := ih tagFn (i + 1)
          simp [importLoopGo, List.enumFrom, Except.toOption, h.1, h.2]
      | error m =>
          have h := ih tagFn (i + 1)
          simp [importLoopGo, List.enumFrom, Except.toOption, h.1, h.2]

theorem foldl_rectUnion_eq (rest : List Rect4) :
    ∀ v : Rect4, rest.foldl rectUnion v =
      ⟨(rest.map (·.minx)).foldl min v.minx, (rest.map (·.miny)).foldl min v.miny,
       (rest.map (·.maxx)).foldl max v.maxx, (rest.map (·.maxy)).foldl max v.maxy⟩ := by
  induction rest with
  | nil => intro v; rfl
  | cons a rest ih => intro v; simp only [List.foldl_cons, List.map_cons, ih, rectUnion]

theorem computeBbox_union (records : List Rec) :
    computeBbox records =
      match records.filterMap recBbox with
      | [] => none
      | v :: rest => some (rest.foldl rectUnion v) := by
  have h : (fun r : Rec =>
      match r.bboxMinx, r.bboxMiny, r.bboxMaxx, r.bboxMaxy with
      | some a, some b, some c, some d => some (Rect4.mk a b c d)
      | _, _, _, _ => none) = recBbox := by
    funext r
    rfl
  simp only [computeBbox, h]
  cases hv : records.filterMap recBbox with
  | nil => rfl
  | cons v rest => simp [foldl_rectUnion_eq]

/-- C8 (counterexample): a GeoJSON ingest of one feature with a null
geometry reports failed = 1, although no insert chunk failed at all
(there were no records to insert) — the claim says per-feature parse
errors do not add to `failed`. -/
theorem import_counts_counterexample :
    (importGeojsonAgg demoDb [Except.error "Null geometry"]).1.failed = 1 ∧
    (batchSpecGo demoDb
        (chunks500 (importLoopGo featureTag 0 [Except.error "Null geometry"]).1)
        0).2.1 = 0 ∧
    (importFionaAgg demoDb [Except.error "Null geometry"]).1.failed = 0 := by
  refine ⟨?_, ?_, ?_⟩
  · simp [importGeojsonAgg, importLoopGo, batchInsert, batchInsertGo]
  · simp [importLoopGo, chunks500, batchSpecGo]
  · simp [importFionaAgg, importLoopGo, batchInsert, batchInsertGo]

/-- C8 (amended): the index-sliced `_batch_insert` loop equals the walk
over the 500-chunks; imported + batch-failed partitions the record
count; the per-feature loop keeps successfully parsed records in order
and index-tags the parse failures in order; `_compute_bbox` is the
componentwise union over the records carrying a bbox, or none; and the
per-format aggregation equations — GeoJSON adds the parse-error count
to `failed` (so for GeoJSON, failed = failed chunk sizes + per-feature
parse errors, not the claimed chunk sum alone), while the fiona and CSV
paths return the chunk-failure sum exactly. -/
theorem import_aggregation_amended :
    (∀ (db : DB) (records : List Rec),
        batchInsert db records = batchSpecGo db (chunks500 records) 0) ∧
    (∀ (db : DB) (records : List Rec),
        (batchInsert db records).1 + (batchInsert db records).2.1 = records.length) ∧
    (∀ (tagFn : Nat → String → String) (i : Nat) (feats : List (Except String Rec)),
        (importLoopGo tagFn i feats).1 = feats.filterMap Except.toOption ∧
        (importLoopGo tagFn i feats).2 = (List.enumFrom i feats).filterMap
          (fun p => match p.2 with
            | Except.error m => some (tagFn p.1 m)
            | Except.ok _ => none)) ∧
    (∀ records : List Rec, computeBbox records =
        match records.filterMap recBbox with
        | [] => none
        | v :: rest => some (rest.foldl rectUnion v)) ∧
    (∀ (db : DB) (feats : List (Except String Rec)),
        importGeojsonAgg db feats =
          (let p := importLoopGo featureTag 0 feats
           let b := batchInsert db p.1
           (⟨b.1, b.2.1 + p.2.length, p.2 ++ b.2.2.1, computeBbox p.1⟩, b.2.2.2)) ∧
        importFionaAgg db feats =
          (let p := importLoopGo featureTag 0 feats
           let b := batchInsert db p.1
           (⟨b.1, b.2.1, p.2 ++ b.2.2.1, computeBbox p.1⟩, b.2.2.2)) ∧
        importCsvAgg db feats =
          (let p := importLoopGo rowTag 0 feats
           let b := batchInsert db p.1
           (⟨b.1, b.2.1, p.2 ++ b.2.2.1, computeBbox p.1⟩, b.2.2.2))) := by
  refine ⟨?_, ?_, ?_, ?_, ?_⟩
  · intro db records
    exact batchInsertGo_eq_spec records.length records db 0 (Nat.le_refl _)
  · intro db records
    rw [batchInsert, batchInsertGo_eq_spec records.length records db 0 (Nat.le_refl _)]
    rw [batchSpecGo_partition]
    exact chunks500_sum records.length records (Nat.le_refl _)
  · intro tagFn i feats
    exact importLoopGo_char feats tagFn i
  · intro records
    exact computeBbox_union records
  · intro db feats
    refine ⟨?_, rfl, rfl⟩
    simp only [importGeojsonAgg]
    have harith : ∀ a b c : Nat, a + (b + c) - c = a + b := by omega
    simp [List.length_append, harith]

/-! ## C3: the stored-feature bbox invariant -/

theorem bind_ok_inv {α β : Type} {x : Except TxErr α} {f : α → Except TxErr β} {r : β}
    (h : x >>= f = Except.ok r) : ∃ a, x = Except.ok a ∧ f a = Except.ok r := by
  cases x with
  | error e => exact Except.noConfusion h
  | ok a => exact ⟨a, rfl, h⟩

theorem foldME_inv {σ α : Type} (f : σ → α → Except TxErr σ) (P : σ → Prop) :
    ∀ l : List α,
    (∀ s a, a ∈ l → P s → ∀ s2, f s a = .ok s2 → P s2) →
    ∀ s, P s → ∀ s2, foldME f s l = .ok s2 → P s2 := by
  intro l
  induction l with
  | nil =>
      intro hstep s hs s2 h
      injection h with h
      exact h ▸ hs
  | cons a rest ih =>
      intro hstep s hs s2 h
      rw [foldME] at h
      cases hf : f s a with
      | error e =>
          rw [hf] at h
          exact Except.noConfusion h
      | ok s1 =>
          rw [hf] at h
          exact ih (fun s3 a3 ha3 => hstep s3 a3 (List.mem_cons_of_mem _ ha3)) s1
            (hstep s a (List.mem_cons_self a rest) hs s1 hf) s2 h

theorem self_mem_iterAll (e : Xml) : e ∈ iterAll e := by
  cases e with
  | elem t a x cs => rw [iterAll]; exact List.mem_cons_self _ _

theorem mem_iterAllList_of_mem {cs : List Xml} {x y : Xml}
    (hx : x ∈ cs) (hy : y ∈ iterAll x) : y ∈ iterAllList cs := by
  induction cs with
  | nil => exact absurd hx (List.not_mem_nil x)
  | cons c rest ih =>
      rw [iterAllList]
      rcases List.mem_cons.mp hx with h | h
      · exact List.mem_append_left _ (h ▸ hy)
      · exact List.mem_append_right _ (ih h)

theorem exists_of_mem_iterAllList : ∀ {cs : List Xml} {y : Xml},
    y ∈ iterAllList cs → ∃ x ∈ cs, y ∈ iterAll x := by
  intro cs
  induction cs with
  | nil => intro y h; rw [iterAllList] at h; exact absurd h (List.not_mem_nil y)
  | cons c rest ih =>
      intro y h
      rw [iterAllList] at h
      rcases List.mem_append.mp h with h | h
      · exact ⟨c, List.mem_cons_self _ _, h⟩
      · obtain ⟨x, hx, hy⟩ := ih h
        exact ⟨x, List.mem_cons_of_mem _ hx, hy⟩

theorem children_mem_iterAll {e c : Xml} (hc : c ∈ e.children) : c ∈ iterAll e := by
  cases e with
  | elem t a x cs =>
      rw [iterAll]
      exact List.mem_cons_of_mem _ (mem_iterAllList_of_mem hc (self_mem_iterAll c))

theorem mem_iterAll_trans : ∀ (n : Nat) (r : Xml), sizeOf r ≤ n →
    ∀ e ∈ iterAll r, ∀ c ∈ e.children, c ∈ iterAll r := by
  intro n
  induction n with
  | zero =>
      intro r h
      cases r with
      | elem t a x cs =>
          simp only [Xml.elem.sizeOf_spec] at h
          omega
  | succ n ih =>
      intro r hr e he c hc
      cases r with
      | elem t a x cs =>
          rw [iterAll] at he ⊢
          rcases List.mem_cons.mp he with h | h
          · subst h
            exact List.mem_cons_of_mem _ (mem_iterAllList_of_mem hc (self_mem_iterAll c))
          · obtain ⟨x0, hx0, hex⟩ := exists_of_mem_iterAllList h
            have hsz : sizeOf x0 ≤ n := by
              have h2 := List.sizeOf_lt_of_mem hx0
              simp only [Xml.elem.sizeOf_spec] at hr
              omega
            exact List.mem_cons_of_mem _
              (mem_iterAllList_of_mem hx0 (ih x0 hsz e hex c hc))

theorem mem_iterAll_of_child {r e c : Xml} (he : e ∈ iterAll r) (hc : c ∈ e.children) :
    c ∈ iterAll r :=
  mem_iterAll_trans (sizeOf r) r (Nat.le_refl _) e he c hc

theorem bounded_reproj_choice {reproj : Nat → Geom → Geom} (hrp : reprojBounded reproj)
    {g : Geom} (srid : Nat) (hg : (boundsGeom g).isSome = true) :
    (boundsGeom (if srid ≠ 4326 then reproj srid g else g)).isSome = true := by
  by_cases h : srid ≠ 4326
  · rw [if_pos h]
    exact hrp srid g hg
  · rw [if_neg h]
    exact hg

theorem gml32ToGeom_nongeom (e : Xml) (h : isGmlGeometry e = false) :
    gml32ToGeom e = .error ("Unsupported GML geometry type: " ++ localName e.tag) := by
  have hni : gmlGeomTags.contains (localName e.tag) = false := h
  have h1 : localName e.tag ≠ "Point" := by
    intro hx; rw [hx] at hni; exact absurd hni (by decide)
  have h2 : localName e.tag ≠ "LineString" := by
    intro hx; rw [hx] at hni; exact absurd hni (by decide)
  have h3 : localName e.tag ≠ "Polygon" := by
    intro hx; rw [hx] at hni; exact absurd hni (by decide)
  have h4 : localName e.tag ≠ "MultiPoint" := by
    intro hx; rw [hx] at hni; exact absurd hni (by decide)
  have h5 : localName e.tag ≠ "MultiCurve" := by
    intro hx; rw [hx] at hni; exact absurd hni (by decide)
  have h6 : localName e.tag ≠ "MultiSurface" := by
    intro hx; rw [hx] at hni; exact absurd hni (by decide)
  have h7 : localName e.tag ≠ "MultiGeometry" := by
    intro hx; rw [hx] at hni; exact absurd hni (by decide)
  simp only [gml32ToGeom]
  rw [parseGmlElement_eq, if_neg h1, if_neg h2, if_neg h3, if_neg h4, if_neg h5,
    if_neg h6, if_neg h7]
  rfl

theorem processFC_geomAcc {reproj : Nat → Geom → Geom} (hrp : reprojBounded reproj)
    {root : Xml} (hb : xmlGeomsBounded root) {c : Xml} (hc : c ∈ iterAll root)
    {acc acc2 : Option Wkb × Option Rect4 × List (String × String)}
    (hacc : geomAccInv acc)
    (h : processFeatureChild reproj acc c = .ok acc2) : geomAccInv acc2 := by
  rw [processFeatureChild] at h
  by_cases h1 : localName c.tag = "geometry" ∨ localName c.tag = "the_geom"
  · rw [if_pos h1] at h
    cases hfind : findGmlGeometry c with
    | none =>
        simp only [hfind] at h
        injection h with h
        exact h ▸ hacc
    | some gmlElem =>
        simp only [hfind] at h
        cases hgml : gml32ToGeom gmlElem with
        | error msg =>
            simp only [hgml] at h
            exact Except.noConfusion h
        | ok gs =>
            simp only [hgml] at h
            injection h with h
            subst h
            intro w hw
            injection hw with hw
            subst hw
            refine ⟨rfl, ?_⟩
            have hmem : gmlElem ∈ iterAll root := by
              refine mem_iterAll_of_child hc ?_
              rw [findGmlGeometry] at hfind
              exact List.mem_of_find?_eq_some hfind
            have hbg : (boundsGeom gs.1).isSome = true := hb gmlElem hmem gs.1 gs.2 hgml
            exact bounded_reproj_choice hrp gs.2 hbg
  · rw [if_neg h1] at h
    by_cases h2 : isGmlGeometry c = true
    · rw [if_pos h2] at h
      cases hgml : gml32ToGeom c with
      | error msg =>
          simp only [hgml] at h
          exact Except.noConfusion h
      | ok gs =>
          simp only [hgml] at h
          injection h with h
          subst h
          intro w hw
          injection hw with hw
          subst hw
          refine ⟨rfl, ?_⟩
          have hbg : (boundsGeom gs.1).isSome = true := hb c hc gs.1 gs.2 hgml
          exact bounded_reproj_choice hrp gs.2 hbg
    · rw [if_neg h2] at h
      injection h with h
      subst h
      intro w hw
      exact hacc w hw

theorem dbInsertFeature_inv {db : DB} {layerId : Nat} {fid : String}
    {geomW : Option Wkb} {props : List (String × PValue)} {bbox : Option Rect4}
    {db2 : DB} (hdb : dbInv db)
    (hgb : ∀ w, geomW = some w →
      bbox = boundsGeom (wkbToGeom w) ∧ (boundsGeom (wkbToGeom w)).isSome = true)
    (h : dbInsertFeature db layerId fid geomW props bbox = .ok db2) : dbInv db2 := by
  rw [dbInsertFeature] at h
  by_cases hdup : (db.features.any fun r => r.layerId == layerId && r.fid == fid) = true
  · rw [if_pos hdup] at h
    exact Except.noConfusion h
  · rw [if_neg hdup] at h
    injection h with h
    subst h
    intro fr hfr
    rcases List.mem_append.mp hfr with hm | hm
    · exact hdb fr hm
    · have hfr3 : fr = ⟨db.nextFeatureId, layerId, fid, geomW, props,
          bbox.map (fun x => x.minx), bbox.map (fun x => x.miny),
          bbox.map (fun x => x.maxx), bbox.map (fun x => x.maxy)⟩ := by
        simpa using hm
      subst hfr3
      intro w hw
      obtain ⟨hb1, hb2⟩ := hgb w hw
      obtain ⟨b, hbb⟩ := Option.isSome_iff_exists.mp hb2
      refine ⟨b, hbb, ?_, ?_, ?_, ?_⟩
      · show bbox.map (fun x => x.minx) = some b.minx
        rw [hb1, hbb]; rfl
      · show bbox.map (fun x => x.miny) = some b.miny
        rw [hb1, hbb]; rfl
      · show bbox.map (fun x => x.maxx) = some b.maxx
        rw [hb1, hbb]; rfl
      · show bbox.map (fun x => x.maxy) = some b.maxy
        rw [hb1, hbb]; rfl

theorem processIF_dbInv {reproj : Nat → Geom → Geom} (hrp : reprojBounded reproj)
    {root : Xml} (hb : xmlGeomsBounded root) {fe : Xml} (hf : fe ∈ iterAll root)
    (st : List (String × String) × List Nat × DB) (hst : dbInv st.2.2)
    (st2 : List (String × String) × List Nat × DB)
    (h : processInsertFeature reproj st fe = .ok st2) : dbInv st2.2.2 := by
  obtain ⟨ins, lids, db0⟩ := st
  rw [processInsertFeature] at h
  obtain ⟨layer, hlayer, h⟩ := bind_ok_inv h
  have hstep : ∀ s a, a ∈ fe.children → geomAccInv s →
      ∀ s2, processFeatureChild reproj s a = .ok s2 → geomAccInv s2 :=
    fun s a ha hs s2 hs2 =>
      processFC_geomAcc hrp hb (mem_iterAll_of_child hf ha) hs hs2
  simp only [] at h
  cases hgid : pyStrFalsy (pyOr2 (attrGet fe (gmlTag "id")) (attrGet fe "gml:id")) with
  | true =>
      rw [hgid] at h
      obtain ⟨res, hres, h⟩ := bind_ok_inv h
      obtain ⟨db2, hins, h⟩ := bind_ok_inv h
      injection h with h
      subst h
      have hres_inv : geomAccInv res :=
        foldME_inv (processFeatureChild reproj) geomAccInv fe.children hstep
          (none, none, []) (fun w hw => Option.noConfusion hw) res hres
      refine dbInsertFeature_inv ?_ hres_inv hins
      intro fr hfr
      exact hst fr hfr
  | false =>
      rw [hgid] at h
      obtain ⟨res, hres, h⟩ := bind_ok_inv h
      obtain ⟨db2, hins, h⟩ := bind_ok_inv h
      injection h with h
      subst h
      have hres_inv : geomAccInv res :=
        foldME_inv (processFeatureChild reproj) geomAccInv fe.children hstep
          (none, none, []) (fun w hw => Option.noConfusion hw) res hres
      refine dbInsertFeature_inv ?_ hres_inv hins
      intro fr hfr
      exact hst fr hfr

theorem handleInsert_dbInv {reproj : Nat → Geom → Geom} (hrp : reprojBounded reproj)
    {root : Xml} (hb : xmlGeomsBounded root) {elem : Xml} (helem : elem ∈ iterAll root)
    {db : DB} (hdb : dbInv db) {r : List (String × String) × List Nat × DB}
    (h : handleInsert reproj elem db = .ok r) : dbInv r.2.2 := by
  rw [handleInsert] at h
  exact foldME_inv (processInsertFeature reproj) (fun st => dbInv st.2.2) elem.children
    (fun s a ha hs s2 hs2 =>
      processIF_dbInv hrp hb (mem_iterAll_of_child helem ha) s hs s2 hs2)
    ([], [], db) hdb r h

theorem processUP_inv {reproj : Nat → Geom → Geom} (hrp : reprojBounded reproj)
    {root : Xml} (hb : xmlGeomsBounded root) {propElem : Xml}
    (hp : propElem ∈ iterAll root)
    {st st2 : List (String × Option String) × Option (Wkb × Option Rect4)}
    (hst : geomUpdInv st)
    (h : processUpdateProp reproj st propElem = .ok st2) : geomUpdInv st2 := by
  rw [processUpdateProp] at h
  cases href : findChild propElem (wfsTag "ValueReference") with
  | none =>
      simp only [href] at h
      injection h with h
      exact h ▸ hst
  | some rr =>
      simp only [href] at h
      cases htext : pyTextOpt rr.text with
      | none =>
          simp only [htext] at h
          injection h with h
          exact h ▸ hst
      | some ftext =>
          simp only [htext] at h
          by_cases hfield : stripSpaces ftext = "geometry" ∨ stripSpaces ftext = "the_geom"
          · rw [if_pos hfield] at h
            cases hval : findChild propElem (wfsTag "Value") with
            | none =>
                simp only [hval] at h
                injection h with h
                exact h ▸ hst
            | some v =>
                simp only [hval] at h
                cases hfind : findGmlGeometry v with
                | none =>
                    simp only [hfind] at h
                    injection h with h
                    exact h ▸ hst
                | some gmlElem =>
                    simp only [hfind] at h
                    cases hgml : gml32ToGeom gmlElem with
                    | error msg =>
                        simp only [hgml] at h
                        exact Except.noConfusion h
                    | ok gs =>
                        simp only [hgml] at h
                        injection h with h
                        subst h
                        intro w b hwb
                        injection hwb with hwb
                        have hw := congrArg Prod.fst hwb
                        have hb2 := congrArg Prod.snd hwb
                        simp only [] at hw hb2
                        subst hw
                        subst hb2
                        refine ⟨rfl, ?_⟩
                        have hvmem : v ∈ propElem.children :=
                          List.mem_of_find?_eq_some hval
                        have hgmem : gmlElem ∈ v.children :=
                          List.mem_of_find?_eq_some hfind
                        have hmem : gmlElem ∈ iterAll root :=
                          mem_iterAll_of_child (mem_iterAll_of_child hp hvmem) hgmem
                        have hbg : (boundsGeom gs.1).isSome = true :=
                          hb gmlElem hmem gs.1 gs.2 hgml
                        exact bounded_reproj_choice hrp gs.2 hbg
          · rw [if_neg hfield] at h
            injection h with h
            subst h
            intro w b hwb
            exact hst w b hwb

theorem applyUpdateRow_inv (layer : LayerRow)
    (pus : List (String × Option String)) (gu : Option (Wkb × Option Rect4))
    (hg : ∀ w b, gu = some (w, b) →
      b = boundsGeom (wkbToGeom w) ∧ (boundsGeom (wkbToGeom w)).isSome = true)
    (st : Nat × DB) (hst : dbInv st.2) (fid : String) :
    dbInv (applyUpdateRow layer pus gu st fid).2 := by
  obtain ⟨updated, db⟩ := st
  cases hfind : db.features.find? (fun r => r.layerId == layer.id && r.fid == fid) with
  | none =>
      simp only [applyUpdateRow, hfind]
      exact hst
  | some row =>
      simp only [applyUpdateRow, hfind]
      by_cases hskip : (pus.isEmpty && gu.isNone) = true
      · rw [if_pos hskip]
        exact hst
      · rw [if_neg hskip]
        intro fr hfr
        obtain ⟨r0, hr0, hfr2⟩ := List.mem_map.mp hfr
        by_cases hid : (r0.id == row.id) = true
        · rw [if_pos hid] at hfr2
          subst hfr2
          cases gu with
          | none =>
              intro w hw
              exact hst row (List.mem_of_find?_eq_some hfind) w hw
          | some guv =>
              intro w hw
              injection hw with hw
              obtain ⟨hb1, hb2⟩ := hg guv.1 guv.2 rfl
              obtain ⟨b, hbb⟩ := Option.isSome_iff_exists.mp hb2
              subst hw
              refine ⟨b, hbb, ?_, ?_, ?_, ?_⟩
              · show guv.2.map (fun x => x.minx) = some b.minx
                rw [hb1, hbb]; rfl
              · show guv.2.map (fun x => x.miny) = some b.miny
                rw [hb1, hbb]; rfl
              · show guv.2.map (fun x => x.maxx) = some b.maxx
                rw [hb1, hbb]; rfl
              · show guv.2.map (fun x => x.maxy) = some b.maxy
                rw [hb1, hbb]; rfl
        · rw [if_neg hid] at hfr2
          subst hfr2
          exact hst r0 hr0

theorem foldl_applyUpdateRow_inv (layer : LayerRow)
    (pus : List (String × Option String)) (gu : Option (Wkb × Option Rect4))
    (hg : ∀ w b, gu = some (w, b) →
      b = boundsGeom (wkbToGeom w) ∧ (boundsGeom (wkbToGeom w)).isSome = true) :
    ∀ (fids : List String) (st : Nat × DB), dbInv st.2 →
      dbInv (fids.foldl (applyUpdateRow layer pus gu) st).2 := by
  intro fids
  induction fids with
  | nil => intro st h; exact h
  | cons f rest ih =>
      intro st h
      exact ih _ (applyUpdateRow_inv layer pus gu hg st h f)

theorem handleUpdate_dbInv {reproj : Nat → Geom → Geom} (hrp : reprojBounded reproj)
    {root : Xml} (hb : xmlGeomsBounded root) {elem : Xml} (helem : elem ∈ iterAll root)
    {db : DB} (hdb : dbInv db) {r : Nat × Nat × DB}
    (h : handleUpdate reproj elem db = .ok r) : dbInv r.2.2 := by
  rw [handleUpdate] at h
  obtain ⟨layer, hlayer, h⟩ := bind_ok_inv h
  obtain ⟨pu, hpu, h⟩ := bind_ok_inv h
  have hgu : geomUpdInv pu :=
    foldME_inv (processUpdateProp reproj) geomUpdInv
      (elem.children.filter (fun c => c.tag == wfsTag "Property"))
      (fun s a ha hs s2 hs2 =>
        processUP_inv hrp hb
          (mem_iterAll_of_child helem (List.mem_of_mem_filter ha)) hs hs2)
      ([], none) (fun w b hwb => Option.noConfusion hwb) pu hpu
  cases hfids : parseResourceIds elem layer.name with
  | nil =>
      rw [hfids] at h
      injection h with h
      subst h
      exact hdb
  | cons f0 frest =>
      rw [hfids] at h
      injection h with h
      subst h
      exact foldl_applyUpdateRow_inv layer pu.1 pu.2 hgu (f0 :: frest) (0, db) hdb

theorem handleDelete_dbInv {elem : Xml} {db : DB} (hdb : dbInv db) {r : Nat × Nat × DB}
    (h : handleDelete elem db = .ok r) : dbInv r.2.2 := by
  rw [handleDelete] at h
  obtain ⟨layer, hlayer, h⟩ := bind_ok_inv h
  cases hfids : parseResourceIds elem layer.name with
  | nil =>
      rw [hfids] at h
      injection h with h
      subst h
      exact hdb
  | cons f0 frest =>
      rw [hfids] at h
      injection h with h
      subst h
      intro fr hfr
      exact hdb fr (List.mem_of_mem_filter hfr)

theorem updateLayerStats_features (db : DB) (lid : Nat) :
    (updateLayerStats db lid).features = db.features := rfl

theorem foldl_updateLayerStats_features :
    ∀ (lids : List Nat) (db : DB),
    ((lids.foldl updateLayerStats db).features) = db.features := by
  intro lids
  induction lids with
  | nil => intro db; rfl
  | cons l rest ih =>
      intro db
      rw [List.foldl_cons]
      exact ih (updateLayerStats db l)

theorem processTxChild_dbInv {reproj : Nat → Geom → Geom} (hrp : reprojBounded reproj)
    {root : Xml} (hb : xmlGeomsBounded root) {acc : TxAcc} {child : Xml} {acc2 : TxAcc}
    (hchild : child ∈ iterAll root) (hacc : dbInv acc.db)
    (h : processTxChild reproj acc child = .ok acc2) : dbInv acc2.db := by
  rw [processTxChild] at h
  by_cases h1 : localName child.tag = "Insert"
  · rw [if_pos h1] at h
    obtain ⟨r, hr, h⟩ := bind_ok_inv h
    injection h with h
    subst h
    exact handleInsert_dbInv hrp hb hchild hacc hr
  · rw [if_neg h1] at h
    by_cases h2 : localName child.tag = "Update"
    · rw [if_pos h2] at h
      obtain ⟨r, hr, h⟩ := bind_ok_inv h
      injection h with h
      subst h
      exact handleUpdate_dbInv hrp hb hchild hacc hr
    · rw [if_neg h2] at h
      by_cases h3 : localName child.tag = "Delete"
      · rw [if_pos h3] at h
        obtain ⟨r, hr, h⟩ := bind_ok_inv h
        injection h with h
        subst h
        exact handleDelete_dbInv hacc hr
      · rw [if_neg h3] at h
        injection h with h
        subst h
        exact hacc

theorem runTxBody_dbInv {reproj : Nat → Geom → Geom} (hrp : reprojBounded reproj)
    {root : Xml} (hb : xmlGeomsBounded root) {db : DB} (hdb : dbInv db) {acc : TxAcc}
    (h : runTxBody reproj root.children db = .ok acc) : dbInv acc.db := by
  rw [runTxBody] at h
  obtain ⟨acc0, hf, h⟩ := bind_ok_inv h
  injection h with h
  subst h
  have hacc0 : dbInv acc0.db :=
    foldME_inv (processTxChild reproj) (fun a => dbInv a.db) root.children
      (fun s a ha hs s2 hs2 =>
        processTxChild_dbInv hrp hb (children_mem_iterAll ha) hs hs2)
      ⟨[], 0, 0, [], db⟩ hdb acc0 hf
  intro fr hfr
  refine hacc0 fr ?_
  have hfr2 : fr ∈ (acc0.affected.foldl updateLayerStats acc0.db).features := hfr
  rw [foldl_updateLayerStats_features] at hfr2
  exact hfr2

theorem executeTransaction_dbInv {reproj : Nat → Geom → Geom}
    (hrp : reprojBounded reproj) {root : Xml} (hb : xmlGeomsBounded root)
    {db : DB} (hdb : dbInv db) : dbInv (executeTransaction reproj root db).2 := by
  rw [executeTransaction]
  by_cases htag : localName root.tag = "Transaction"
  · rw [if_neg (fun hne => hne htag)]
    cases hrun : runTxBody reproj root.children db with
    | error e => exact hdb
    | ok acc => exact runTxBody_dbInv hrp hb hdb hrun
  · rw [if_pos htag]
    exact hdb

theorem execMany_inv : ∀ (chunk : List Rec) (db : DB),
    (∀ r ∈ chunk, recBboxInv r) → dbInv db →
    ∀ db2, execManyOrIgnore db chunk = .ok db2 → dbInv db2 := by
  intro chunk
  induction chunk with
  | nil =>
      intro db hc hdb db2 h
      injection h with h
      exact h ▸ hdb
  | cons r rest ih =>
      intro db hc hdb db2 h
      rw [execManyOrIgnore] at h
      by_cases hfk : (!db.layers.any fun L => L.id == r.layerId) = true
      · rw [if_pos hfk] at h
        exact Except.noConfusion h
      · rw [if_neg hfk] at h
        by_cases hdup : (db.features.any fun f => f.layerId == r.layerId && f.fid == r.fid) = true
        · rw [if_pos hdup] at h
          exact ih db (fun x hx => hc x (List.mem_cons_of_mem _ hx)) hdb db2 h
        · rw [if_neg hdup] at h
          refine ih _ (fun x hx => hc x (List.mem_cons_of_mem _ hx)) ?_ db2 h
          intro fr hfr
          rcases List.mem_append.mp hfr with hm | hm
          · exact hdb fr hm
          · have hfr3 : fr = ⟨db.nextFeatureId, r.layerId, r.fid, some r.geometry,
                r.properties, r.bboxMinx, r.bboxMiny, r.bboxMaxx, r.bboxMaxy⟩ := by
              simpa using hm
            subst hfr3
            intro w hw
            injection hw with hw
            obtain ⟨b, hb1, hb2, hb3, hb4, hb5⟩ := hc r (List.mem_cons_self r rest)
            subst hw
            exact ⟨b, hb1, hb2, hb3, hb4, hb5⟩

theorem batchInsertGo_inv : ∀ (n : Nat) (records : List Rec) (db : DB) (k : Nat),
    records.length ≤ n → (∀ r ∈ records, recBboxInv r) → dbInv db →
    dbInv (batchInsertGo db records k).2.2.2 := by
  intro n
  induction n with
  | zero =>
      intro records db k h hr hdb
      cases records with
      | nil =>
          rw [batchInsertGo]
          exact hdb
      | cons r rs => simp at h
  | succ n ih =>
      intro records db k h hr hdb
      cases records with
      | nil =>
          rw [batchInsertGo]
          exact hdb
      | cons r rs =>
          rw [batchInsertGo]
          have hlen : ((r :: rs).drop 500).length ≤ n := by
            simp only [List.length_drop, List.length_cons] at h ⊢
            omega
          have hchunk : ∀ x ∈ (r :: rs).take 500, recBboxInv x :=
            fun x hx => hr x (List.take_subset _ _ hx)
          have hrest : ∀ x ∈ (r :: rs).drop 500, recBboxInv x :=
            fun x hx => hr x (List.drop_subset _ _ hx)
          cases hex : execManyOrIgnore db ((r :: rs).take 500) with
          | ok db2 =>
              simp only [hex]
              exact ih _ db2 (k + 1) hlen hrest
                (execMany_inv _ db hchunk hdb db2 hex)
          | error msg =>
              simp only [hex]
              exact ih _ db (k + 1) hlen hrest hdb

/-- C3 (counterexample): a WFS-T Insert of an EMPTY `gml:MultiPoint`
succeeds — the transaction commits a feature row whose geometry column
is non-null (the WKB of the empty MultiPoint) while all four bbox
columns are NULL, so the row violates the claimed invariant. -/
theorem bbox_invariant_counterexample :
    (executeTransaction demoReproj emptyMpTx demoDb).1 =
      TxResponse.success [("roads", "m1")] 0 0 ∧
    ∃ fr ∈ (executeTransaction demoReproj emptyMpTx demoDb).2.features,
      fr.geometry = some (geomToWkb (Geom.multiPoint [])) ∧
      fr.bboxMinx = none ∧ fr.bboxMiny = none ∧
      fr.bboxMaxx = none ∧ fr.bboxMaxy = none ∧
      ¬ featureBboxInv fr := by
  refine ⟨by decide, ⟨2, 1, "m1", some (geomToWkb (Geom.multiPoint [])), [],
      none, none, none, none⟩, ?_, rfl, rfl, rfl, rfl, rfl, ?_⟩
  · rw [show (executeTransaction demoReproj emptyMpTx demoDb).2.features =
        [roadsFeature, ⟨2, 1, "m1", some (geomToWkb (Geom.multiPoint [])), [],
          none, none, none, none⟩] from rfl]
    exact List.mem_cons_of_mem _ (List.mem_cons_self _ _)
  · intro hinv
    obtain ⟨b, hb, hrest⟩ := hinv (geomToWkb (Geom.multiPoint [])) rfl
    exact Option.noConfusion hb

/-- C3 (amended): the claim as stated is refuted by the empty-geometry
counterexample above; it holds once restricted to geometries with
defined bounds.  Precisely: the bbox invariant (a non-null geometry
column comes with all four bbox columns non-null and equal to the
bounds of the WKB-decoded geometry) is established by `_make_record`
for every geometry with defined bounds, and preserved by
`_batch_insert` (the whole ingest write path) and by
`execute_transaction` (the Insert, Update and Delete operations and
the layer-stats update), for reprojections preserving
bounds-definedness and transaction bodies whose parseable GML
geometries have defined bounds (empty geometries excluded). -/
theorem bbox_invariant_claim :
    (∀ (layerId : Nat) (geom : Geom) (props : List (String × PValue))
        (fid : Option String) (tok : String),
        (boundsGeom geom).isSome = true →
        recBboxInv (makeRecord layerId geom props fid tok)) ∧
    (∀ (db : DB) (records : List Rec),
        (∀ r ∈ records, recBboxInv r) → dbInv db →
        dbInv (batchInsert db records).2.2.2) ∧
    (∀ (reproj : Nat → Geom → Geom) (root : Xml) (db : DB),
        reprojBounded reproj → xmlGeomsBounded root → dbInv db →
        dbInv (executeTransaction reproj root db).2) := by
  refine ⟨?_, ?_, ?_⟩
  · intro layerId geom props fid tok hbs
    obtain ⟨b, hb⟩ := Option.isSome_iff_exists.mp hbs
    refine ⟨b, hb, ?_, ?_, ?_, ?_⟩
    · show ((boundsGeom geom).map (fun x => x.minx)) = some b.minx
      rw [hb]; rfl
    · show ((boundsGeom geom).map (fun x => x.miny)) = some b.miny
      rw [hb]; rfl
    · show ((boundsGeom geom).map (fun x => x.maxx)) = some b.maxx
      rw [hb]; rfl
    · show ((boundsGeom geom).map (fun x => x.maxy)) = some b.maxy
      rw [hb]; rfl
  · intro db records hr hdb
    rw [batchInsert]
    exact batchInsertGo_inv records.length records db 0 (Nat.le_refl _) hr hdb
  · intro reproj root db hrp hb hdb
    exact executeTransaction_dbInv hrp hb hdb

theorem demoDb_inv : dbInv demoDb := by
  intro fr hfr
  have h2 : fr = roadsFeature := by simpa [demoDb] using hfr
  subst h2
  intro w hw
  exact Option.noConfusion hw

theorem s4Tx_bounded : xmlGeomsBounded s4Tx := by
  intro e he g srid hp
  simp only [s4Tx, iterAll, iterAllList, List.mem_cons, List.not_mem_nil, or_false,
    List.mem_append, List.append_nil, List.nil_append, or_assoc] at he
  rcases he with rfl | rfl | rfl | rfl | rfl | rfl <;>
    · rw [gml32ToGeom_nongeom _ (by decide)] at hp
      exact Except.noConfusion hp

theorem ptTx_bounded : xmlGeomsBounded ptTx := by
  intro e he g srid hp
  simp only [ptTx, iterAll, iterAllList, List.mem_cons, List.not_mem_nil, or_false,
    List.mem_append, List.append_nil, List.nil_append, or_assoc] at he
  rcases he with rfl | rfl | rfl | rfl | rfl <;>
    first
    | (rw [gml32ToGeom_nongeom _ (by decide)] at hp
       exact Except.noConfusion hp)
    | (rw [show gml32ToGeom (Xml.elem (gmlTag "Point") [] XText.none
            [Xml.elem (gmlTag "pos") [] (XText.nums [1, 2]) []]) =
          Except.ok (Geom.point (2, 1), 4326) from rfl] at hp
       injection hp with hp
       have hg : Geom.point (2, 1) = g := congrArg Prod.fst hp
       subst hg
       decide)

theorem bbox_invariant_claim_witness :
    recBboxInv (makeRecord 1 (Geom.point (1, 2)) [] none "t") ∧
    dbInv (batchInsert demoDb [makeRecord 1 (Geom.point (1, 2)) [] none "t"]).2.2.2 ∧
    dbInv (executeTransaction demoReproj ptTx demoDb).2 := by
  have hrec : recBboxInv (makeRecord 1 (Geom.point (1, 2)) [] none "t") :=
    bbox_invariant_claim.1 1 (Geom.point (1, 2)) [] none "t"
      (by simp [boundsGeom, geomCoords])
  refine ⟨hrec, ?_, ?_⟩
  · refine bbox_invariant_claim.2.1 demoDb
      [makeRecord 1 (Geom.point (1, 2)) [] none "t"] ?_ demoDb_inv
    intro r hr
    rw [show r = makeRecord 1 (Geom.point (1, 2)) [] none "t" from by simpa using hr]
    exact hrec
  · exact bbox_invariant_claim.2.2 demoReproj ptTx demoDb
      (fun s g h => h) ptTx_bounded demoDb_inv

end WFS
